import Mathlib

/-!
Verification of the condition/action execution core of the
Auto-Clicker-Enhanced UI automation tool.

The development shallowly embeds the two pure-logic modules
`core/action.py` and `core/job_run_condition.py`.  Python values that can
appear in action/run-condition dictionaries are modelled by the inductive
type `PyVal` (`None`, `bool`, `int`, `float`, `str`, `list`, `dict`);
Python floats are modelled as rationals (`Rat`), dictionaries as
insertion-ordered association lists, and raising code as `Except`-valued
functions.
-/

set_option maxHeartbeats 1000000

namespace AutoClicker

/-- A Python value, as can occur in the JSON-shaped dictionaries the core
consumes and produces.  Floats are modelled exactly as rationals. -/
inductive PyVal where
  | none
  | bool (b : Bool)
  | int (n : Int)
  | float (q : Rat)
  | str (s : String)
  | list (xs : List PyVal)
  | dict (entries : List (String × PyVal))
  deriving Inhabited

/-- A Python dictionary with string keys: an insertion-ordered association
list (Python dicts preserve insertion order). -/
abbrev Dict := List (String × PyVal)

/-- `d.get(k)` returning `Option`: the value at the first matching key. -/
def dictGet (p : Dict) (k : String) : Option PyVal :=
  match p with
  | [] => Option.none
  | (k', v) :: rest => if k' = k then some v else dictGet rest k

/-- `d.get(k, dflt)`: lookup with a default. -/
def dictGetD (p : Dict) (k : String) (dflt : PyVal) : PyVal :=
  (dictGet p k).getD dflt

/-- `d[k] = v`: replace the value at the first matching key, appending the
pair when the key is absent (Python dict assignment semantics). -/
def dictSet (p : Dict) (k : String) (v : PyVal) : Dict :=
  match p with
  | [] => [(k, v)]
  | (k', v') :: rest =>
    if k' = k then (k', v) :: rest else (k', v') :: dictSet rest k v

/-- Python truthiness `bool(v)`: `None`, `False`, zero numbers, and empty
strings/lists/dicts are falsy; everything else is truthy. -/
def pyTruthy : PyVal → Bool
  | .none => false
  | .bool b => b
  | .int n => n ≠ 0
  | .float q => q ≠ 0
  | .str s => s ≠ ""
  | .list xs => !xs.isEmpty
  | .dict es => !es.isEmpty

/-! ### Python string primitives

`str.strip()`, `int(str)` and `str(value)` as used by
`Action.__init__` / `safe_int_or_none` (action.py lines 66-82, 188-194)
and the run-condition constructors. -/

/-- ASCII whitespace, as stripped by Python `str.strip()`. -/
def pyIsWs (c : Char) : Bool :=
  c = ' ' || c = '\t' || c = '\n' || c = '\r' || c = '\x0b' || c = '\x0c'

/-- `str.strip()` on a character list: drop whitespace from both ends. -/
def stripEnds (l : List Char) : List Char :=
  ((l.dropWhile pyIsWs).reverse.dropWhile pyIsWs).reverse

/-- Tail of a Python integer-literal digit run: digits, with single
underscores allowed only between digits (`int("1_0") = 10`,
`int("1__0")`/`int("1_")` raise). -/
def digitsTail : List Char → Bool
  | [] => true
  | c :: rest =>
    if c = '_' then
      match rest with
      | [] => false
      | d :: rest2 => d.isDigit && digitsTail rest2
    else
      c.isDigit && digitsTail rest

/-- A valid unsigned Python integer literal body: nonempty, starts with a
digit, rest per `digitsTail`. -/
def validNum : List Char → Bool
  | [] => false
  | c :: rest => c.isDigit && digitsTail rest

/-- Numeric value of a digit character. -/
def charVal (c : Char) : Nat := c.toNat - 48

/-- Value of a digit run (underscores skipped), accumulated left to right. -/
def digitsVal : List Char → Nat → Nat
  | [], acc => acc
  | c :: rest, acc =>
    if c = '_' then digitsVal rest acc
    else digitsVal rest (10 * acc + charVal c)

/-- Python `int(s)` on a string (as a character list): strip whitespace,
optional sign, then a valid digit run; `Option.none` models the
`ValueError` raised otherwise. -/
def pyIntOfChars (l : List Char) : Option Int :=
  match stripEnds l with
  | [] => Option.none
  | c :: rest =>
    if c = '+' then
      if validNum rest then some ((digitsVal rest 0 : Nat) : Int) else Option.none
    else if c = '-' then
      if validNum rest then some (-((digitsVal rest 0 : Nat) : Int)) else Option.none
    else
      if validNum (c :: rest) then some ((digitsVal (c :: rest) 0 : Nat) : Int)
      else Option.none

/-- The decimal digit character for `d < 10` (match form keeps proofs by
case analysis easy). -/
def digitChar10 : Nat → Char
  | 0 => '0' | 1 => '1' | 2 => '2' | 3 => '3' | 4 => '4'
  | 5 => '5' | 6 => '6' | 7 => '7' | 8 => '8' | _ => '9'

/-- Decimal representation of a natural number (accumulator form with a
structural fuel so that evaluation reduces in the kernel; the fuel is
always at least `n`, which keeps the implicit `n = 0` case of exhausted
fuel unreachable), modelling Python `str(n)` for `n ≥ 0`. -/
def natReprAux : Nat → Nat → List Char → List Char
  | 0, n, acc => digitChar10 n :: acc
  | fuel + 1, n, acc =>
    if n < 10 then digitChar10 n :: acc
    else natReprAux fuel (n / 10) (digitChar10 (n % 10) :: acc)

/-- Decimal representation of a natural number. -/
def natRepr (n : Nat) : List Char := natReprAux n n []

/-- Python `str(n)` for an int. -/
def intRepr (n : Int) : List Char :=
  if n < 0 then '-' :: natRepr n.natAbs else natRepr n.natAbs

/-- Fractional decimal digits of `num/den` (fuel-bounded; 400 digits is
enough for every value a Python float can hold, where `den` is a power of
two). -/
def fracDigits (num den : Nat) : Nat → List Char
  | 0 => []
  | fuel + 1 =>
    if num = 0 then []
    else digitChar10 (num * 10 / den) :: fracDigits (num * 10 % den) den fuel

/-- Python `str(q)` for a float: always of the form
`[-]intpart.fracpart`, exact for the dyadic rationals that Python floats
are.  The only property the embedded code depends on is that the result
contains a dot and therefore never parses as an integer. -/
def floatRepr (q : Rat) : List Char :=
  let sign : List Char := if q < 0 then ['-'] else []
  let n := q.num.natAbs
  let whole := natRepr (n / q.den)
  let frac := fracDigits (n % q.den) q.den 400
  sign ++ whole ++ ('.' :: (if frac.isEmpty then ['0'] else frac))

mutual

/-- Python `str(v)`.  For lists and dicts the element reprs are
approximated by nested `str` (Python would quote inner strings); the
embedded code only ever feeds such bracketed results to integer parsing
and enum-membership checks, which fail on them either way. -/
def pyStr : PyVal → List Char
  | .none => "None".data
  | .bool true => "True".data
  | .bool false => "False".data
  | .int n => intRepr n
  | .float q => floatRepr q
  | .str s => s.data
  | .list xs => '[' :: (pyStrList xs ++ [']'])
  | .dict es => Char.ofNat 123 :: (pyStrEntries es ++ [Char.ofNat 125])

/-- Comma-joined `str` of list elements. -/
def pyStrList : List PyVal → List Char
  | [] => []
  | [x] => pyStr x
  | x :: rest => pyStr x ++ (',' :: ' ' :: pyStrList rest)

/-- Comma-joined `str` of dict entries. -/
def pyStrEntries : List (String × PyVal) → List Char
  | [] => []
  | [(k, v)] => k.data ++ (':' :: ' ' :: pyStr v)
  | (k, v) :: rest => k.data ++ (':' :: ' ' :: pyStr v) ++ (',' :: ' ' :: pyStrEntries rest)

end

/-- Python `s.lower()` restricted to ASCII (used on button / click-type
names). -/
def lowerAscii (l : List Char) : List Char := l.map Char.toLower

/-- A raised Python exception, distinguishing the classes the embedded
`except` clauses treat differently: `except (ValueError, TypeError)`
(Click/MoveMouse/Drag/Wait and both run-condition constructors) does not
catch `OverflowError`, while `except Exception` (the key/text variants
and the run-condition factory) catches everything. -/
inductive PyErr where
  | valueError (msg : String)
  | typeError (msg : String)
  | overflowError (msg : String)
  deriving DecidableEq

/-- Membership in an `except (ValueError, TypeError)` clause. -/
def catchVT : PyErr → Bool
  | .valueError _ => true
  | .typeError _ => true
  | .overflowError _ => false

/-- Membership in an `except Exception` clause. -/
def catchAll : PyErr → Bool := fun _ => true

/-- Python `str(e)`: the exception's message, recorded as the
`_validation_error` of an invalidated action. -/
def errMsgOf : PyErr → String
  | .valueError m => m
  | .typeError m => m
  | .overflowError m => m

/-- Truncation toward zero, as Python `int(float)` does. -/
def ratTrunc (q : Rat) : Int :=
  if q < 0 then -((q.num.natAbs / q.den : Nat) : Int) else ((q.num.natAbs / q.den : Nat) : Int)

/-- Python `int(x)` on a value: bools count as 0/1, floats truncate toward
zero, strings parse as integer literals (a failure is `ValueError`);
`None`/lists/dicts raise `TypeError`.  `int()` never raises
`OverflowError` (Python ints are unbounded, and the model's floats are
finite). -/
def pyToInt : PyVal → Except PyErr Int
  | .bool b => .ok (if b then 1 else 0)
  | .int n => .ok n
  | .float q => .ok (ratTrunc q)
  | .str s =>
    match pyIntOfChars s.data with
    | some n => .ok n
    | Option.none => .error (.valueError "invalid literal for int() with base 10")
  | .none => .error (.typeError "int() argument must not be None")
  | .list _ => .error (.typeError "int() argument must not be a list")
  | .dict _ => .error (.typeError "int() argument must not be a dict")

/-- Unsigned digit run as a number (`Option.none` when malformed). -/
def parseDigitRun (l : List Char) : Option Nat :=
  if validNum l then some (digitsVal l 0) else Option.none

/-- Mantissa of a float literal: `digits`, `digits.`, `.digits` or
`digits.digits`. -/
def parseMantissa (l : List Char) : Option Rat :=
  match l.span (· ≠ '.') with
  | (ip, []) => (parseDigitRun ip).map (fun n => (n : Rat))
  | (ip, _ :: fp) =>
    if fp.contains '.' then Option.none
    else
      match ip, fp with
      | [], [] => Option.none
      | [], _ =>
        (parseDigitRun fp).map (fun n => (n : Rat) / (10 : Rat) ^ fp.length)
      | _, [] => (parseDigitRun ip).map (fun n => (n : Rat))
      | _, _ =>
        match parseDigitRun ip, parseDigitRun fp with
        | some i, some f => some ((i : Rat) + (f : Rat) / (10 : Rat) ^ fp.length)
        | _, _ => Option.none

/-- Python `float(s)` on a string: strip, optional sign, mantissa,
optional decimal exponent. -/
def pyFloatOfChars (l : List Char) : Option Rat :=
  let t := stripEnds l
  let (sgn, body) : Rat × List Char :=
    match t with
    | '+' :: r => (1, r)
    | '-' :: r => (-1, r)
    | _ => (1, t)
  match body.span (fun c => c ≠ 'e' && c ≠ 'E') with
  | (mant, []) => (parseMantissa mant).map (sgn * ·)
  | (mant, _ :: ex) =>
    let (esgn, ebody) : Bool × List Char :=
      match ex with
      | '+' :: r => (false, r)
      | '-' :: r => (true, r)
      | _ => (false, ex)
    match parseMantissa mant, parseDigitRun ebody with
    | some m, some e =>
      some (sgn * m * (if esgn then ((10 : Rat) ^ e)⁻¹ else (10 : Rat) ^ e))
    | _, _ => Option.none

/-- The smallest magnitude at which Python `float(int)` raises
`OverflowError`: integers of absolute value `≥ 2^1024 - 2^970` round (to
nearest, ties to even) to `2^1024`, beyond the largest finite double
`2^1024 - 2^971`. -/
def pyFloatIntLimit : Nat := 2 ^ 1024 - 2 ^ 970

/-- Python `float(x)` on a value: ints convert exactly unless they
exceed the double range (then `OverflowError`); a failing string parse
is `ValueError`; `None`/lists/dicts raise `TypeError`.  (Huge string
literals, which CPython turns into `inf` rather than raising, keep
their exact rational value here; no embedded code path depends on
them.) -/
def pyToFloat : PyVal → Except PyErr Rat
  | .bool b => .ok (if b then 1 else 0)
  | .int n =>
    if n.natAbs < pyFloatIntLimit then .ok (n : Rat)
    else .error (.overflowError "int too large to convert to float")
  | .float q => .ok q
  | .str s =>
    match pyFloatOfChars s.data with
    | some q => .ok q
    | Option.none => .error (.valueError "could not convert string to float")
  | .none => .error (.typeError "float() argument must not be None")
  | .list _ => .error (.typeError "float() argument must not be a list")
  | .dict _ => .error (.typeError "float() argument must not be a dict")

/-- `safe_int_or_none` (action.py lines 188-194, and the identical inline
logic of `Action.__init__` lines 65-82): `str(value)` (empty for `None`),
then `int(·)` when the stripped string is nonempty, then `max(0, ·)` on a
successfully parsed int; every failure path yields `None`. -/
def safeIntOrNone (v : PyVal) : Option Int :=
  let valStr : List Char := match v with | .none => [] | _ => pyStr v
  if (stripEnds valStr).isEmpty then Option.none
  else
    match pyIntOfChars valStr with
    | some n => some (max 0 n)
    | Option.none => Option.none

/-! ### The Action data model (core/action.py) -/

/-- The state of an `Action` object after construction (core/action.py
lines 44-97).  The variant-derived scalar attributes (`x`, `y`,
`button`, ...) are deterministic functions of `params` recomputed by the
coercions below and are not duplicated here; `_condition_instance_cache`
(always `None` right after construction, line 64) is passed to `execute`
explicitly. -/
structure ActionData where
  type : String
  params : Dict
  conditionId : Option String
  nextIfMet : Option Int
  nextIfNotMet : Option Int
  isAbsolute : Bool
  fallback : Option (List PyVal)
  isValid : Bool
  validationError : Option String
  deriving Inhabited

/-- `condition_id` normalization (lines 61-63): a string whose strip is
nonempty is stored stripped, anything else becomes `None`. -/
def condIdNorm : PyVal → Option String
  | .str s =>
    let t := stripEnds s.data
    if t.isEmpty then Option.none else some (String.mk t)
  | _ => Option.none

/-- `params` normalization (lines 54-60): a dict is kept and `None`
becomes the empty dict; for any other value the warning branch raises,
because its f-string evaluates `type(params)` where `type` is the
shadowing string parameter (`TypeError: str object is not callable`),
aborting construction. -/
def initParamsNorm : PyVal → Except PyErr Dict
  | .none => .ok []
  | .dict es => .ok es
  | _ => .error (.typeError "str object is not callable")

/-- The per-entry test of `Action.__init__`'s fallback filter (line 88):
`isinstance(action_data, dict) and action_data.get("type")`. -/
def fbEntryOk : PyVal → Bool
  | .dict es => pyTruthy (dictGetD es "type" .none)
  | _ => false

/-- `isinstance(item_data, dict)` (line 203). -/
def isDictVal : PyVal → Bool
  | .dict _ => true
  | _ => false

/-- `fallback_action_sequence` normalization in `Action.__init__` (lines
84-95): for a list, keep the entries that are dicts with a truthy
`"type"`, yielding `None` when nothing survives; any non-list becomes
`None`. -/
def fallbackNormInit : PyVal → Option (List PyVal)
  | .list xs =>
    let valid := xs.filter fbEntryOk
    if valid.isEmpty then Option.none else some valid
  | _ => Option.none

/-- `Action.__init__` (lines 45-97).  All call sites pass a `str` for
`type`, so the `isinstance` guard reduces to the emptiness check.  A
non-`None` non-dict `params` raises `TypeError` out of the warning
branch (see `initParamsNorm`).  The jump-index fields use the inline
copy of `safe_int_or_none` (lines 65-82, character-identical to lines
188-194); `is_absolute` is `bool(·)`-coerced (line 83). -/
def Action.initBase (ty : String) (params conditionId nextMet nextNotMet isAbs fallback : PyVal) :
    Except PyErr ActionData :=
  if ty = "" then .error (.valueError "Action type must be a non-empty string.")
  else
    match initParamsNorm params with
    | .error e => .error e
    | .ok ps => .ok {
        type := ty
        params := ps
        conditionId := condIdNorm conditionId
        nextIfMet := safeIntOrNone nextMet
        nextIfNotMet := safeIntOrNone nextNotMet
        isAbsolute := pyTruthy isAbs
        fallback := fallbackNormInit fallback
        isValid := true
        validationError := Option.none }

/-! #### Variant parameter coercions

Each concrete subclass `__init__` runs a `try` block that coerces its
parameters in order, writing some of them back into `params`; on the
first exception of a class listed in the variant's `except` clause it
records `_is_valid = False` with `_validation_error = str(e)` while
keeping the mutations made so far, and an exception outside that clause
(an `OverflowError` under `except (ValueError, TypeError)`) escapes the
constructor. -/

/-- The outcome of one coercion statement (or of a whole `try` block):
it ran through, it returned early after marking the action invalid (the
key-name checks), or it raised an exception; in each case the params
dict as mutated so far is carried along. -/
inductive StepOut where
  | ok (p : Dict)
  | invalidReturn (p : Dict) (msg : String)
  | raised (p : Dict) (e : PyErr)

/-- The params dict an outcome leaves behind. -/
def StepOut.dict : StepOut → Dict
  | .ok p => p
  | .invalidReturn p _ => p
  | .raised p _ => p

/-- One coercion statement of a variant `__init__`:
* `checkInt k dflt` — `int(self.params.get(k, dflt))` stored only as an
  attribute: no params mutation, but a conversion failure invalidates
  the action;
* `enum k allowed dflt` — `str(self.params.get(k, dflt)).lower()`
  membership check, values outside `allowed` replaced by the default in
  `params` (e.g. lines 276-281);
* `floatClamp k dflt` — `max(0.0, float(self.params.get(k, dflt)))`
  written back into `params` (e.g. lines 282-285);
* `reqStr k msg` — `str(self.params.get(k, ""))` required nonempty
  (key-name checks, line 310), marking the action invalid with `msg` and
  returning early otherwise;
* `req2Str k1 k2 msg` — the two-key variant of the same check
  (`ModifiedKeyStrokeAction`, line 488). -/
inductive CoStep where
  | checkInt (k : String) (dflt : Int)
  | enum (k : String) (allowed : List String) (dflt : String)
  | floatClamp (k : String) (dflt : Rat)
  | reqStr (k : String) (msg : String)
  | req2Str (k1 k2 : String) (msg : String)

/-- Execute one coercion statement.  A conversion failure raises (to be
dispatched by the variant's `except` clause); a key-name check failure
returns early with the action marked invalid. -/
def runStep : CoStep → Dict → StepOut
  | .checkInt k dflt, p =>
    match pyToInt (dictGetD p k (.int dflt)) with
    | .ok _ => .ok p
    | .error e => .raised p e
  | .enum k allowed dflt, p =>
    if allowed.contains (String.mk (lowerAscii (pyStr (dictGetD p k (.str dflt))))) then
      .ok p
    else .ok (dictSet p k (.str dflt))
  | .floatClamp k dflt, p =>
    match pyToFloat (dictGetD p k (.float dflt)) with
    | .ok d => .ok (dictSet p k (.float (max 0 d)))
    | .error e => .raised p e
  | .reqStr k msg, p =>
    if (pyStr (dictGetD p k (.str ""))).isEmpty then .invalidReturn p msg else .ok p
  | .req2Str k1 k2 msg, p =>
    if (pyStr (dictGetD p k1 (.str ""))).isEmpty
        || (pyStr (dictGetD p k2 (.str ""))).isEmpty then .invalidReturn p msg
    else .ok p

/-- Execute a `try` block of coercion statements in order; the first
exception or early return stops the block with the mutations made so
far kept. -/
def runSteps : List CoStep → Dict → StepOut
  | [], p => .ok p
  | s :: rest, p =>
    match runStep s p with
    | .ok p' => runSteps rest p'
    | out => out

/-- The `try/except` wrapper of a variant `__init__`: `catches` is its
`except` clause.  A caught exception marks the action invalid with
`str(e)` (e.g. lines 286-287); an uncaught one (only `OverflowError`
under `except (ValueError, TypeError)`) propagates out of the
constructor. -/
def runVariant (catches : PyErr → Bool) (steps : List CoStep) (p : Dict) :
    Except PyErr (Dict × Option String) :=
  match runSteps steps p with
  | .ok p' => .ok (p', Option.none)
  | .invalidReturn p' msg => .ok (p', some msg)
  | .raised p' e => if catches e then .ok (p', some (errMsgOf e)) else .error e

/-- `ClickAction.__init__` coercions, in source order (lines 273-288). -/
def clickSteps : List CoStep :=
  [.checkInt "x" 0, .checkInt "y" 0,
   .enum "button" ["left", "right", "middle"] "left",
   .enum "click_type" ["single", "double", "down", "up"] "single",
   .floatClamp "delay_before" 0, .floatClamp "hold_duration" 0]

/-- `PressKeyAction.__init__` coercions (lines 308-314); shared verbatim
by `KeyDownAction` (414-419) and `KeyUpAction` (438-443). -/
def pressKeySteps : List CoStep :=
  [.reqStr "key" "key_name parameter is empty.", .floatClamp "delay_before" 0]

/-- `MoveMouseAction.__init__` coercions (lines 333-338). -/
def moveMouseSteps : List CoStep :=
  [.checkInt "x" 0, .checkInt "y" 0,
   .floatClamp "duration" (1 / 10), .floatClamp "delay_before" 0]

/-- `DragAction.__init__` coercions (lines 357-365). -/
def dragSteps : List CoStep :=
  [.checkInt "x" 0, .checkInt "y" 0, .checkInt "swipe_x" 0, .checkInt "swipe_y" 0,
   .enum "button" ["left", "right", "middle"] "left",
   .floatClamp "duration" 1, .floatClamp "delay_before" 0]

/-- `WaitAction.__init__` coercions (lines 389-393). -/
def waitSteps : List CoStep :=
  [.floatClamp "duration" 1, .floatClamp "delay_before" 0]

/-- `TextEntryAction.__init__` coercions (lines 462-466):
`str(params.get("text",""))` can neither fail nor mutate `params`, so
only the delay clamp is observable. -/
def textEntrySteps : List CoStep :=
  [.floatClamp "delay_before" 0]

/-- `ModifiedKeyStrokeAction.__init__` coercions (lines 485-491). -/
def modKeySteps : List CoStep :=
  [.req2Str "modifier" "main_key" "modifier or main_key parameter is empty.",
   .floatClamp "delay_before" 0]

/-- The `action_class_map` keys (lines 211-221). -/
def knownTypes : List String :=
  ["click", "press_key", "move_mouse", "drag", "wait",
   "key_down", "key_up", "text_entry", "modified_key_stroke"]

/-- The `except` clause of each variant's `try` block: Click (line
286), MoveMouse (337), Drag (364) and Wait (392) catch only
`(ValueError, TypeError)`; PressKey (313), KeyDown (418), KeyUp (442),
TextEntry (465) and ModifiedKeyStroke (490) catch `Exception`. -/
def catchesFor (ty : String) : PyErr → Bool :=
  if ty = "click" ∨ ty = "move_mouse" ∨ ty = "drag" ∨ ty = "wait" then catchVT
  else catchAll

/-- The coercion statements the chosen subclass `__init__` runs on
`self.params` after the base initializer. -/
def stepsFor (ty : String) : List CoStep :=
  if ty = "click" then clickSteps
  else if ty = "press_key" then pressKeySteps
  else if ty = "move_mouse" then moveMouseSteps
  else if ty = "drag" then dragSteps
  else if ty = "wait" then waitSteps
  else if ty = "key_down" then pressKeySteps
  else if ty = "key_up" then pressKeySteps
  else if ty = "text_entry" then textEntrySteps
  else if ty = "modified_key_stroke" then modKeySteps
  else []

/-- Variant coercion dispatch: what the chosen subclass `__init__` does
to `self.params` after the base initializer ran, under the variant's
own `except` clause. -/
def coerceParams (ty : String) (p : Dict) : Except PyErr (Dict × Option String) :=
  runVariant (catchesFor ty) (stepsFor ty) p

/-- Constructing a concrete `Action` subclass: the base initializer
(which can raise on bad `params`), then the variant's parameter
coercion, which records validity or lets an uncaught exception escape
the constructor. -/
def Action.mkVariant (ty : String) (params conditionId nextMet nextNotMet isAbs fallback : PyVal) :
    Except PyErr ActionData :=
  match Action.initBase ty params conditionId nextMet nextNotMet isAbs fallback with
  | .error e => .error e
  | .ok a =>
    match coerceParams ty a.params with
    | .error e => .error e
    | .ok r => .ok { a with params := r.1, isValid := r.2.isNone, validationError := r.2 }

/-- Instantiating the base class `Action` directly.  `Action` derives
from `ABC` and leaves `_execute_core_logic` abstract (lines 44,
147-148), so `Action(...)` raises
`TypeError: cannot instantiate abstract class` before `__init__` runs.
Both `from_dict`'s unknown-type branch (line 241) and all of
`create_action`'s fallback branches (lines 501, 508, 514) hit this. -/
def Action.abstractNew : Except PyErr ActionData :=
  .error (.typeError "cannot instantiate abstract class Action with abstract method")

/-- `Option` fields rendered back as Python values (argument passing and
`to_dict`). -/
def optStrPy : Option String → PyVal
  | some s => .str s
  | Option.none => .none

/-- `Optional[int]` as a Python value. -/
def optIntPy : Option Int → PyVal
  | some n => .int n
  | Option.none => .none

/-- `Optional[List[dict]]` as a Python value. -/
def optListPy : Option (List PyVal) → PyVal
  | some l => .list l
  | Option.none => .none

/-- `from_dict`'s own fallback filter (lines 199-208): keep the entries
that are dicts, `None` when nothing survives or the input is not a
list. -/
def fallbackNormFromDict : PyVal → Option (List PyVal)
  | .list items =>
    let vs := items.filter isDictVal
    if vs.isEmpty then Option.none else some vs
  | _ => Option.none

/-- `Action.from_dict` (lines 166-249).  Known types dispatch to the
subclass constructor; a `ValueError` from it is re-raised as is and any
other exception (an `OverflowError` escaping a `(ValueError, TypeError)`
handler — the base initializer's params `TypeError` is unreachable here
because `params` was already forced to a dict at lines 181-182) is
wrapped into `ValueError` (lines 235-238).  Unknown types attempt to
instantiate the abstract base class, which raises `TypeError`. -/
def Action.fromDict (data : PyVal) : Except PyErr ActionData :=
  match data with
  | .dict es =>
    let actionType := dictGetD es "type" .none
    let params0 := dictGetD es "params" (.dict [])
    let condData := dictGetD es "condition_id" .none
    let nextMetD := dictGetD es "next_action_index_if_condition_met" .none
    let nextNotMetD := dictGetD es "next_action_index_if_condition_not_met" .none
    let isAbsD := dictGetD es "is_absolute" (.bool false)
    let fbD := dictGetD es "fallback_action_sequence" .none
    match actionType with
    | .str ty =>
      if ty = "" then
        .error (.valueError "Action data must contain a non-empty 'type' string.")
      else
        let params1 := match params0 with | .dict _ => params0 | _ => .dict []
        if knownTypes.contains ty then
          match Action.mkVariant ty params1 (optStrPy (condIdNorm condData))
            (optIntPy (safeIntOrNone nextMetD)) (optIntPy (safeIntOrNone nextNotMetD))
            isAbsD (optListPy (fallbackNormFromDict fbD)) with
          | .ok a => .ok a
          | .error (.valueError m) => .error (.valueError m)
          | .error _ =>
            .error (.valueError ("Could not create Action '" ++ ty ++ "' from dictionary data."))
        else
          Action.abstractNew
    | _ => .error (.valueError "Action data must contain a non-empty 'type' string.")
  | _ => .error (.valueError "Action data for from_dict must be a dictionary.")

/-- `Action.to_dict` (lines 154-164). -/
def Action.toDict (a : ActionData) : PyVal :=
  .dict [("type", .str a.type),
         ("params", .dict a.params),
         ("condition_id", optStrPy a.conditionId),
         ("next_action_index_if_condition_met", optIntPy a.nextIfMet),
         ("next_action_index_if_condition_not_met", optIntPy a.nextIfNotMet),
         ("is_absolute", .bool a.isAbsolute),
         ("fallback_action_sequence", optListPy a.fallback)]

/-- `create_action` (lines 499-518).  Every fallback branch constructs
the abstract base class directly and therefore raises `TypeError`
instead of returning the intended placeholder: non-dict input at line
501, the `except ValueError` diagnostic placeholder at line 508, and the
`except Exception` one at line 514 (which is also where the `TypeError`
coming out of `from_dict`'s unknown-type branch lands). -/
def createAction (data : PyVal) : Except PyErr ActionData :=
  match data with
  | .dict _ =>
    match Action.fromDict data with
    | .ok a => .ok a
    | .error _ => Action.abstractNew
  | _ => Action.abstractNew

/-! ### Action.execute (core/action.py lines 99-145) -/

/-- Modelled from the spec: `core/condition.py` is not among the provided
sources (action.py imports it at line 29).  Per spec §3, a Condition is
identified by `id` (optional string) and `name`, carries a `type` tag,
and exposes `check(**context) -> bool`.  `checkResult` is the outcome of
invoking `check` in the ambient context: a boolean, or a raised
exception. -/
structure Condition where
  id : Option String
  name : String
  type : String
  checkResult : Except PyErr Bool

/-- What a condition manager's `get_shared_condition_by_id` can hand
back: an actual `Condition`, or some non-`Condition` object (rejected by
the `isinstance` guard at line 115; modelled as still carrying the `id`
attribute the cache test reads). -/
inductive LookupResult where
  | cond (c : Condition)
  | notCond (id : Option String)

/-- The `id` attribute of a lookup result. -/
def LookupResult.lrId : LookupResult → Option String
  | .cond c => c.id
  | .notCond i => i

/-- The condition manager capability: `hasGetShared` models
`hasattr(manager, 'get_shared_condition_by_id')` (line 104), `lookup`
the method itself. -/
structure CondManager where
  hasGetShared : Bool
  lookup : String → Option LookupResult

/-- What the variant's `_execute_core_logic` would do if invoked:
how many `simulate_*` calls it performs on the os-interaction bridge,
and whether it raises (re-raised by `execute`, line 142).  `execute`
itself never touches the bridge outside core logic. -/
structure CoreOutcome where
  simCalls : Nat
  raises : Option PyErr

/-- Observable outcome of one `execute` call: the returned condition
outcome (or the re-raised exception), whether core logic ran at all, the
number of `simulate_*` bridge calls made, and the condition-instance
cache as left behind (line 113). -/
structure ExecResult where
  result : Except PyErr Bool
  coreRan : Bool
  simCalls : Nat
  cacheAfter : Option LookupResult

/-- `Action.execute` (lines 99-145).  `cache` is the current
`_condition_instance_cache` (always `None` straight after construction,
line 64); `stopSet` is whether the job stop event is set when line 134
runs; `core` describes the variant's core logic, dispatched dynamically
in the source.  The embedding takes `_ConditionClassImported = True`
(the deployed configuration, where `core/condition.py` imports). -/
def Action.execute (a : ActionData) (cache : Option LookupResult)
    (mgr : Option CondManager) (stopSet : Bool) (core : CoreOutcome) : ExecResult :=
  let step : Bool × Option LookupResult :=
    match a.conditionId with
    | Option.none => (true, cache)
    | some cid =>
      match mgr with
      | Option.none => (false, cache)
      | some m =>
        if !m.hasGetShared then (false, cache)
        else
          let fresh := m.lookup cid
          let resolved : Option LookupResult × Option LookupResult :=
            match cache with
            | some lr => if lr.lrId = some cid then (some lr, cache) else (fresh, fresh)
            | Option.none => (fresh, fresh)
          match resolved.1 with
          | Option.none => (false, resolved.2)
          | some (.notCond _) => (false, resolved.2)
          | some (.cond c) =>
            match c.checkResult with
            | .ok b => (b, resolved.2)
            | .error _ => (false, resolved.2)
  if !step.1 then ⟨.ok false, false, 0, step.2⟩
  else if stopSet then ⟨.ok step.1, false, 0, step.2⟩
  else
    match core.raises with
    | some e => ⟨.error e, true, core.simCalls, step.2⟩
    | Option.none => ⟨.ok step.1, true, core.simCalls, step.2⟩

/-! ### Run conditions (core/job_run_condition.py) -/

/-- `JobContext` (job_run_condition.py lines 8-15). -/
structure JobContext where
  runCount : Int
  startTime : Rat
  jobName : String

/-- A constructed `JobRunCondition`: one variant per concrete subclass,
carrying its (possibly mutated) `params` dict and its derived field. -/
inductive JobRunCondition where
  | infinite (params : Dict)
  | count (params : Dict) (targetCount : Int)
  | time (params : Dict) (durationSeconds : Rat)

/-- `JobRunCondition.__init__` params handling (lines 22-29):
`self.params = params or {}` keeps the entries of a truthy dict and
replaces every falsy argument by `{}`; for a truthy non-dict argument
the isinstance guard fires and its warning f-string evaluates
`type(params)` — but the `type: str` parameter shadows the builtin, so
this raises `TypeError: 'str' object is not callable` out of the
constructor instead of logging. -/
def jrcParamsNorm (params : PyVal) : Except PyErr Dict :=
  if pyTruthy params then
    match params with
    | .dict es => .ok es
    | _ => .error (.typeError "str object is not callable")
  else .ok []

/-- `InfiniteRunCondition.__init__` (lines 71-72): just the base-class
init, which raises on truthy non-dict params. -/
def InfiniteRunCondition.init (params : PyVal) : Except PyErr JobRunCondition :=
  match jrcParamsNorm params with
  | .error e => .error e
  | .ok ps => .ok (.infinite ps)

/-- `CountRunCondition.__init__` (lines 83-91):
`max(1, int(self.params.get("count", 1)))` written back into `params`;
`ValueError` and `TypeError` from the conversion are caught and default
both the field and the entry to 1 (and `int()` raises nothing outside
that tuple here).  The base-class init runs first and can raise. -/
def CountRunCondition.init (params : PyVal) : Except PyErr JobRunCondition :=
  match jrcParamsNorm params with
  | .error e => .error e
  | .ok ps =>
    match pyToInt (dictGetD ps "count" (.int 1)) with
    | .ok n => .ok (.count (dictSet ps "count" (.int (max 1 n))) (max 1 n))
    | .error e =>
      if catchVT e then .ok (.count (dictSet ps "count" (.int 1)) 1)
      else .error e

/-- `TimeRunCondition.__init__` (lines 105-113):
`max(0.1, float(self.params.get("duration", 60.0)))` written back;
`ValueError` and `TypeError` are caught and default both to 60.0, but an
`OverflowError` from `float()` on an int of magnitude ≥ 2^1024 − 2^970
is not in the except tuple and propagates.  The base-class init runs
first and can raise. -/
def TimeRunCondition.init (params : PyVal) : Except PyErr JobRunCondition :=
  match jrcParamsNorm params with
  | .error e => .error e
  | .ok ps =>
    match pyToFloat (dictGetD ps "duration" (.float 60)) with
    | .ok d => .ok (.time (dictSet ps "duration" (.float (max (1 / 10) d))) (max (1 / 10) d))
    | .error e =>
      if catchVT e then .ok (.time (dictSet ps "duration" (.float 60)) 60)
      else .error e

/-- `check_continue` (lines 74-76, 94-99, 116-126), with the
`time.monotonic()` reading injected as `now`.  The time variant fails
closed on an unset (0.0) start time. -/
def JobRunCondition.checkContinue (c : JobRunCondition) (ctx : JobContext) (now : Rat) : Bool :=
  match c with
  | .infinite _ => true
  | .count _ t => ctx.runCount < t
  | .time _ d => if ctx.startTime = 0 then false else now - ctx.startTime < d

/-- `JobRunCondition.to_dict` (lines 48-49). -/
def JobRunCondition.toDict : JobRunCondition → PyVal
  | .infinite ps => .dict [("type", .str "infinite"), ("params", .dict ps)]
  | .count ps _ => .dict [("type", .str "count"), ("params", .dict ps)]
  | .time ps _ => .dict [("type", .str "time"), ("params", .dict ps)]

/-- `create_job_run_condition` (lines 128-165).  The non-dict and
missing/invalid-type branches return `InfiniteRunCondition()` outside
the `try` (argument defaulted to `None`, hence empty params; that call
cannot raise).  Inside the `try`, constructing the chosen variant can
raise — the shadowed-`type` `TypeError` of the base class on truthy
non-dict params, or an `OverflowError` out of `float()` in
`TimeRunCondition` — and the `except Exception` handler (lines 162-165)
then falls back to `InfiniteRunCondition()` as well. -/
def createJobRunCondition (data : PyVal) : JobRunCondition :=
  match data with
  | .dict es =>
    let ty := dictGetD es "type" .none
    let params := dictGetD es "params" (.dict [])
    match ty with
    | .str s =>
      if s = "" then .infinite []
      else
        match
          (if s = "infinite" then InfiniteRunCondition.init params
           else if s = "count" then CountRunCondition.init params
           else if s = "time" then TimeRunCondition.init params
           else .ok (.infinite [])) with
        | .ok c => c
        | .error _ => .infinite []
    | _ => .infinite []
  | _ => .infinite []

/-! ### Unfolding lemmas for the run-condition constructors -/

theorem jrcParamsNorm_dict (es : Dict) : jrcParamsNorm (.dict es) = .ok es := by
  unfold jrcParamsNorm
  by_cases h : pyTruthy (.dict es) = true
  · rw [if_pos h]
  · rw [if_neg h]
    cases es with
    | nil => rfl
    | cons x xs => exact absurd (show pyTruthy (.dict (x :: xs)) = true from rfl) h

theorem count_init_ok {v : PyVal} {ps : Dict} (hj : jrcParamsNorm v = .ok ps) :
    CountRunCondition.init v =
      match pyToInt (dictGetD ps "count" (.int 1)) with
      | .ok n => .ok (.count (dictSet ps "count" (.int (max 1 n))) (max 1 n))
      | .error e =>
        if catchVT e then .ok (.count (dictSet ps "count" (.int 1)) 1)
        else .error e := by
  unfold CountRunCondition.init
  rw [hj]

theorem count_init_err {v : PyVal} {e : PyErr} (hj : jrcParamsNorm v = .error e) :
    CountRunCondition.init v = .error e := by
  unfold CountRunCondition.init
  rw [hj]

theorem time_init_ok {v : PyVal} {ps : Dict} (hj : jrcParamsNorm v = .ok ps) :
    TimeRunCondition.init v =
      match pyToFloat (dictGetD ps "duration" (.float 60)) with
      | .ok d => .ok (.time (dictSet ps "duration" (.float (max (1 / 10) d))) (max (1 / 10) d))
      | .error e =>
        if catchVT e then .ok (.time (dictSet ps "duration" (.float 60)) 60)
        else .error e := by
  unfold TimeRunCondition.init
  rw [hj]

theorem time_init_err {v : PyVal} {e : PyErr} (hj : jrcParamsNorm v = .error e) :
    TimeRunCondition.init v = .error e := by
  unfold TimeRunCondition.init
  rw [hj]

/-- The only exceptions `int()` raises on the embedded value universe
are `ValueError` and `TypeError`, both inside the constructors' except
tuple. -/
theorem pyToInt_err_caught {v : PyVal} {e : PyErr} (h : pyToInt v = .error e) :
    catchVT e = true := by
  cases v with
  | bool b => exact Except.noConfusion h
  | int n => exact Except.noConfusion h
  | float q => exact Except.noConfusion h
  | str s =>
    replace h : (match pyIntOfChars s.data with
      | some n => (Except.ok n : Except PyErr Int)
      | Option.none =>
        Except.error (PyErr.valueError "invalid literal for int() with base 10")) =
        Except.error e := h
    cases hp : pyIntOfChars s.data with
    | some n =>
      rw [hp] at h
      exact Except.noConfusion h
    | none =>
      rw [hp] at h
      replace h : Except.error (PyErr.valueError "invalid literal for int() with base 10") =
        (Except.error e : Except PyErr Int) := h
      injection h with h2
      rw [← h2]
      rfl
  | none =>
    injection h with h2
    rw [← h2]
    rfl
  | list xs =>
    injection h with h2
    rw [← h2]
    rfl
  | dict es2 =>
    injection h with h2
    rw [← h2]
    rfl

/-! ### Dictionary lemmas -/

theorem dictGet_dictSet_self (p : Dict) (k : String) (v : PyVal) :
    dictGet (dictSet p k v) k = some v := by
  induction p with
  | nil => simp [dictGet, dictSet]
  | cons kv rest ih =>
    obtain ⟨k', v'⟩ := kv
    by_cases h : k' = k <;> simp [dictGet, dictSet, h, ih]

theorem dictGet_dictSet_ne (p : Dict) (k j : String) (v : PyVal) (h : j ≠ k) :
    dictGet (dictSet p j v) k = dictGet p k := by
  induction p with
  | nil => simp [dictGet, dictSet, h]
  | cons kv rest ih =>
    obtain ⟨k', v'⟩ := kv
    by_cases h' : k' = j
    · subst h'
      simp [dictGet, dictSet, h]
    · simp only [dictSet, if_neg h']
      by_cases h'' : k' = k <;> simp [dictGet, h'', ih]

theorem dictSet_of_dictGet (p : Dict) (k : String) (v : PyVal)
    (h : dictGet p k = some v) : dictSet p k v = p := by
  induction p with
  | nil => simp [dictGet] at h
  | cons kv rest ih =>
    obtain ⟨k', v'⟩ := kv
    by_cases h' : k' = k
    · simp [dictGet, h'] at h
      simp [dictSet, h', h]
    · simp [dictGet, h'] at h
      simp [dictSet, h', ih h]

theorem dictGetD_dictSet_self (p : Dict) (k : String) (v dflt : PyVal) :
    dictGetD (dictSet p k v) k dflt = v := by
  simp [dictGetD, dictGet_dictSet_self]

theorem dictGetD_dictSet_ne (p : Dict) (k j : String) (v dflt : PyVal) (h : j ≠ k) :
    dictGetD (dictSet p j v) k dflt = dictGetD p k dflt := by
  simp [dictGetD, dictGet_dictSet_ne _ _ _ _ h]

/-! ### Strip lemmas -/

theorem mem_dropWhile_of_not {p : Char → Bool} {c : Char} {l : List Char}
    (hm : c ∈ l) (hc : ¬p c) : c ∈ l.dropWhile p := by
  induction l with
  | nil => simp at hm
  | cons a t ih =>
    by_cases ha : p a
    · simp only [List.dropWhile_cons, ha, if_true]
      rcases List.mem_cons.mp hm with rfl | hm'
      · exact absurd ha hc
      · exact ih hm'
    · simpa [List.dropWhile_cons, ha] using hm

theorem mem_stripEnds {c : Char} {l : List Char} (hm : c ∈ l) (hc : ¬pyIsWs c) :
    c ∈ stripEnds l := by
  unfold stripEnds
  exact List.mem_reverse.mpr
    (mem_dropWhile_of_not (List.mem_reverse.mpr (mem_dropWhile_of_not hm hc)) hc)

theorem dropWhile_eq_self_of_all {p : Char → Bool} {l : List Char}
    (h : ∀ c ∈ l, ¬p c) : l.dropWhile p = l := by
  cases l with
  | nil => rfl
  | cons a t => simp [List.dropWhile_cons, h a (by simp)]

theorem stripEnds_eq_self_of_all {l : List Char} (h : ∀ c ∈ l, ¬pyIsWs c) :
    stripEnds l = l := by
  unfold stripEnds
  rw [dropWhile_eq_self_of_all h,
    dropWhile_eq_self_of_all (fun c hc => h c (List.mem_reverse.mp hc)), List.reverse_reverse]

theorem head?_dropWhile_not (p : Char → Bool) (l : List Char) {c : Char}
    (h : (l.dropWhile p).head? = some c) : ¬p c := by
  induction l with
  | nil => simp [List.dropWhile] at h
  | cons a t ih =>
    by_cases ha : p a
    · exact ih (by simpa [List.dropWhile_cons, ha] using h)
    · simp [List.dropWhile_cons, ha] at h
      exact h ▸ ha

theorem dropWhile_eq_self_of_head {p : Char → Bool} {l : List Char}
    (h : ∀ c, l.head? = some c → ¬p c) : l.dropWhile p = l := by
  cases l with
  | nil => rfl
  | cons a t => simp [List.dropWhile_cons, h a rfl]

theorem getLast?_dropWhile (p : Char → Bool) (l : List Char)
    (h : l.dropWhile p ≠ []) : (l.dropWhile p).getLast? = l.getLast? := by
  induction l with
  | nil => simp [List.dropWhile] at h
  | cons a t ih =>
    by_cases ha : p a
    · simp only [List.dropWhile_cons, ha, if_true] at h ⊢
      have ht : t ≠ [] := by
        intro hte
        simp [hte, List.dropWhile] at h
      rw [ih h]
      cases t with
      | nil => exact absurd rfl ht
      | cons b t' => rw [List.getLast?_cons_cons]
    · simp [List.dropWhile_cons, ha]

/-- Python `strip` is idempotent. -/
theorem stripEnds_stripEnds (l : List Char) : stripEnds (stripEnds l) = stripEnds l := by
  by_cases hnil : stripEnds l = []
  · rw [hnil]; rfl
  set a := l.dropWhile pyIsWs with ha
  set b := a.reverse.dropWhile pyIsWs with hb
  have hsl : stripEnds l = b.reverse := rfl
  have hbne : b ≠ [] := by
    intro hbe
    exact hnil (by rw [hsl, hbe]; rfl)
  -- the head of `stripEnds l` is the last of `b`, which is the last of
  -- `a.reverse`, i.e. the head of `a`; all of these are non-whitespace
  have hhead : ∀ c, (stripEnds l).head? = some c → ¬pyIsWs c := by
    intro c hc
    rw [hsl, List.head?_reverse] at hc
    have hlast : b.getLast? = a.reverse.getLast? := getLast?_dropWhile _ _ hbne
    rw [hlast, List.getLast?_reverse] at hc
    exact fun hw => (head?_dropWhile_not pyIsWs l (ha ▸ hc)) hw
  have hbhead : ∀ c, b.head? = some c → ¬pyIsWs c := fun c hc =>
    head?_dropWhile_not pyIsWs a.reverse (hb ▸ hc)
  show ((((stripEnds l).dropWhile pyIsWs).reverse.dropWhile pyIsWs)).reverse = stripEnds l
  rw [dropWhile_eq_self_of_head hhead, hsl, List.reverse_reverse,
    dropWhile_eq_self_of_head hbhead]

/-! ### Integer-literal parsing lemmas -/

theorem digitsTail_mem {l : List Char} (h : digitsTail l = true) :
    ∀ c ∈ l, c.isDigit = true ∨ c = '_' := by
  induction l using digitsTail.induct with
  | case1 => intro c hc; simp at hc
  | case2 =>
    unfold digitsTail at h
    simp at h
  | case3 d rest2 ih =>
    intro x hx
    unfold digitsTail at h
    simp only [if_pos rfl] at h
    obtain ⟨hd, ht⟩ := Bool.and_eq_true_iff.mp h
    rcases List.mem_cons.mp hx with rfl | hx'
    · right; rfl
    · rcases List.mem_cons.mp hx' with rfl | hx''
      · left; exact hd
      · exact ih ht x hx''
  | case4 d rest2 hcu ih =>
    intro x hx
    unfold digitsTail at h
    simp only [if_neg hcu] at h
    obtain ⟨hd, ht⟩ := Bool.and_eq_true_iff.mp h
    rcases List.mem_cons.mp hx with rfl | hx'
    · left; exact hd
    · exact ih ht x hx'

theorem validNum_mem {l : List Char} (h : validNum l = true) :
    ∀ c ∈ l, c.isDigit = true ∨ c = '_' := by
  cases l with
  | nil => intro c hc; simp at hc
  | cons a t =>
    unfold validNum at h
    obtain ⟨hd, ht⟩ := Bool.and_eq_true_iff.mp h
    intro c hc
    rcases List.mem_cons.mp hc with rfl | hc'
    · left; exact hd
    · exact digitsTail_mem ht c hc'

/-- A "bad" character: one that can appear in no Python int literal and
is not stripped and not a sign.  Membership of such a character anywhere
in the input makes `int()` raise. -/
def badForInt (c : Char) : Prop :=
  ¬pyIsWs c ∧ c.isDigit = false ∧ c ≠ '_' ∧ c ≠ '+' ∧ c ≠ '-'

theorem validNum_eq_false_of_bad {l : List Char} {c : Char}
    (hm : c ∈ l) (hb : badForInt c) : validNum l = false := by
  obtain ⟨-, hd, hu, -, -⟩ := hb
  by_contra h
  rcases validNum_mem (Bool.of_not_eq_false h) c hm with h' | h'
  · rw [hd] at h'; exact Bool.false_ne_true h'
  · exact hu h'

theorem pyIntOfChars_eq_none_of_bad {l : List Char} {c : Char}
    (hm : c ∈ l) (hb : badForInt c) : pyIntOfChars l = Option.none := by
  have hm' : c ∈ stripEnds l := mem_stripEnds hm hb.1
  unfold pyIntOfChars
  cases hse : stripEnds l with
  | nil => rfl
  | cons a t =>
    rw [hse] at hm'
    by_cases hap : a = '+'
    · have hct : c ∈ t := by
        rcases List.mem_cons.mp hm' with rfl | h'
        · exact absurd hap hb.2.2.2.1
        · exact h'
      simp [hap, validNum_eq_false_of_bad hct hb]
    · by_cases ham : a = '-'
      · have hct : c ∈ t := by
          rcases List.mem_cons.mp hm' with rfl | h'
          · exact absurd ham hb.2.2.2.2
          · exact h'
        simp [hap, ham, validNum_eq_false_of_bad hct hb]
      · simp [hap, ham, validNum_eq_false_of_bad hm' hb]

/-! ### Decimal representation: digits and the parse round trip -/

theorem digitChar10_spec (d : Nat) (hd : d < 10) :
    (digitChar10 d).isDigit = true ∧ charVal (digitChar10 d) = d ∧
      digitChar10 d ≠ '_' ∧ ¬pyIsWs (digitChar10 d) ∧
      digitChar10 d ≠ '+' ∧ digitChar10 d ≠ '-' := by
  interval_cases d <;> exact ⟨rfl, rfl, by decide, by decide, by decide, by decide⟩

theorem natReprAux_eq_append (fuel : Nat) : ∀ (n : Nat) (acc : List Char),
    natReprAux fuel n acc = natReprAux fuel n [] ++ acc := by
  induction fuel with
  | zero => intro n acc; rfl
  | succ fuel ih =>
    intro n acc
    by_cases h : n < 10
    · simp [natReprAux, h]
    · simp only [natReprAux, if_neg h]
      rw [ih (n / 10) (digitChar10 (n % 10) :: acc), ih (n / 10) [digitChar10 (n % 10)]]
      simp

theorem natReprAux_ne_nil (fuel : Nat) : ∀ (n : Nat) (acc : List Char),
    natReprAux fuel n acc ≠ [] := by
  induction fuel with
  | zero => intro n acc; simp [natReprAux]
  | succ fuel ih =>
    intro n acc
    by_cases h : n < 10
    · simp [natReprAux, h]
    · simp only [natReprAux, if_neg h]
      exact ih (n / 10) _

theorem natRepr_ne_nil (n : Nat) : natRepr n ≠ [] := natReprAux_ne_nil n n []

/-- Every value of `digitChar10` is the image of a digit below 10 (`9`
and everything above map to the catch-all arm). -/
theorem digitChar10_canon (m : Nat) : ∃ d, d < 10 ∧ digitChar10 m = digitChar10 d := by
  by_cases h : m < 10
  · exact ⟨m, h, rfl⟩
  · obtain ⟨k, rfl⟩ : ∃ k, m = k + 9 := ⟨m - 9, by omega⟩
    exact ⟨9, by omega, rfl⟩

theorem natReprAux_mem (fuel : Nat) : ∀ (n : Nat) (acc : List Char) (c : Char),
    c ∈ natReprAux fuel n acc → (∃ d, d < 10 ∧ c = digitChar10 d) ∨ c ∈ acc := by
  induction fuel with
  | zero =>
    intro n acc c hc
    rcases List.mem_cons.mp hc with rfl | h'
    · exact Or.inl (digitChar10_canon n)
    · exact Or.inr h'
  | succ fuel ih =>
    intro n acc c hc
    by_cases h : n < 10
    · simp only [natReprAux, if_pos h] at hc
      rcases List.mem_cons.mp hc with rfl | h'
      · exact Or.inl ⟨n, h, rfl⟩
      · exact Or.inr h'
    · simp only [natReprAux, if_neg h] at hc
      rcases ih (n / 10) _ c hc with h' | h'
      · exact Or.inl h'
      · rcases List.mem_cons.mp h' with rfl | h''
        · exact Or.inl (digitChar10_canon (n % 10))
        · exact Or.inr h''

theorem natRepr_mem {n : Nat} {c : Char} (h : c ∈ natRepr n) :
    ∃ d, d < 10 ∧ c = digitChar10 d := by
  rcases natReprAux_mem n n [] c h with h' | h'
  · exact h'
  · simp at h'

theorem natRepr_all_digits {n : Nat} {c : Char} (h : c ∈ natRepr n) : c.isDigit = true := by
  obtain ⟨d, hd, rfl⟩ := natRepr_mem h
  exact (digitChar10_spec d hd).1

theorem natRepr_not_ws {n : Nat} {c : Char} (h : c ∈ natRepr n) : ¬pyIsWs c := by
  obtain ⟨d, hd, rfl⟩ := natRepr_mem h
  exact (digitChar10_spec d hd).2.2.2.1

theorem digitsTail_of_all_digits {l : List Char} (h : ∀ c ∈ l, c.isDigit = true) :
    digitsTail l = true := by
  induction l with
  | nil => rfl
  | cons a t ih =>
    have ha : a.isDigit = true := h a (by simp)
    have hau : ¬a = '_' := by
      intro he
      rw [he] at ha
      exact Bool.false_ne_true ha
    unfold digitsTail
    simp only [if_neg hau]
    exact Bool.and_eq_true_iff.mpr ⟨ha, ih fun c hc => h c (by simp [hc])⟩

theorem validNum_natRepr (n : Nat) : validNum (natRepr n) = true := by
  cases hc : natRepr n with
  | nil => exact absurd hc (natRepr_ne_nil n)
  | cons a t =>
    unfold validNum
    refine Bool.and_eq_true_iff.mpr ⟨natRepr_all_digits (hc ▸ List.mem_cons_self a t), ?_⟩
    exact digitsTail_of_all_digits fun c hcm => natRepr_all_digits (hc ▸ List.mem_cons.mpr (Or.inr hcm))

theorem digitsVal_append (xs ys : List Char) (a : Nat) :
    digitsVal (xs ++ ys) a = digitsVal ys (digitsVal xs a) := by
  induction xs generalizing a with
  | nil => rfl
  | cons c t ih =>
    by_cases hcu : c = '_' <;> simp [digitsVal, hcu, ih]

theorem natReprAux_val (fuel : Nat) : ∀ n : Nat, n ≤ fuel → ∀ a : Nat,
    digitsVal (natReprAux fuel n []) a = a * 10 ^ (natReprAux fuel n []).length + n := by
  induction fuel with
  | zero =>
    intro n hn a
    obtain rfl : n = 0 := Nat.le_zero.mp hn
    obtain ⟨-, hv, hu, -⟩ := digitChar10_spec 0 (by omega)
    show digitsVal [digitChar10 0] a = a * 10 ^ ([digitChar10 0]).length + 0
    simp [digitsVal, hu, hv]
    ring
  | succ fuel ih =>
    intro n hn a
    by_cases hlt : n < 10
    · obtain ⟨-, hv, hu, -⟩ := digitChar10_spec n hlt
      simp only [natReprAux, if_pos hlt]
      simp [digitsVal, hu, hv]
      ring
    · have hd : n / 10 ≤ fuel := by
        have := Nat.div_lt_self (show 0 < n by omega) (show 1 < 10 by omega)
        omega
      have h1 : natReprAux (fuel + 1) n [] =
          natReprAux fuel (n / 10) [] ++ [digitChar10 (n % 10)] := by
        simp only [natReprAux, if_neg hlt]
        exact natReprAux_eq_append fuel (n / 10) [digitChar10 (n % 10)]
      obtain ⟨-, hv, hu, -⟩ := digitChar10_spec (n % 10) (Nat.mod_lt _ (by omega))
      rw [h1, digitsVal_append, ih (n / 10) hd]
      simp [digitsVal, hu, hv, List.length_append, pow_succ]
      ring_nf
      omega

theorem digitsVal_natRepr (n : Nat) : ∀ a : Nat,
    digitsVal (natRepr n) a = a * 10 ^ (natRepr n).length + n :=
  natReprAux_val n n le_rfl

theorem pyIntOfChars_natRepr (n : Nat) : pyIntOfChars (natRepr n) = some (n : Int) := by
  have hstrip : stripEnds (natRepr n) = natRepr n :=
    stripEnds_eq_self_of_all fun c hc => natRepr_not_ws hc
  unfold pyIntOfChars
  rw [hstrip]
  cases hc : natRepr n with
  | nil => exact absurd hc (natRepr_ne_nil n)
  | cons a t =>
    have ham : a ∈ natRepr n := hc ▸ List.mem_cons_self a t
    obtain ⟨d, hd, rfl⟩ := natRepr_mem ham
    obtain ⟨-, -, -, -, hp, hm⟩ := digitChar10_spec d hd
    have hvn : validNum (digitChar10 d :: t) = true := hc ▸ validNum_natRepr n
    have hdv : digitsVal (digitChar10 d :: t) 0 = n := by
      have := digitsVal_natRepr n 0
      rw [hc] at this
      simpa using this
    simp [hp, hm, hvn, hdv]

theorem pyIntOfChars_intRepr (n : Int) : pyIntOfChars (intRepr n) = some n := by
  unfold intRepr
  by_cases hn : n < 0
  · have hstrip : stripEnds ('-' :: natRepr n.natAbs) = '-' :: natRepr n.natAbs := by
      refine stripEnds_eq_self_of_all ?_
      intro c hc
      rcases List.mem_cons.mp hc with rfl | hc'
      · decide
      · exact natRepr_not_ws hc'
    unfold pyIntOfChars
    rw [if_pos hn, hstrip]
    have : ('-' : Char) ≠ '+' := by decide
    simp only [this, if_neg, reduceIte, validNum_natRepr n.natAbs, if_pos]
    have hdv : digitsVal (natRepr n.natAbs) 0 = n.natAbs := by simpa using digitsVal_natRepr n.natAbs 0
    rw [hdv]
    congr 1
    omega
  · rw [if_neg hn, pyIntOfChars_natRepr]
    congr 1
    omega

/-! ### Behaviour of safe_int_or_none on each input shape -/

theorem intRepr_not_ws {n : Int} {c : Char} (h : c ∈ intRepr n) : ¬pyIsWs c := by
  unfold intRepr at h
  by_cases hn : n < 0
  · rw [if_pos hn] at h
    rcases List.mem_cons.mp h with rfl | h'
    · decide
    · exact natRepr_not_ws h'
  · rw [if_neg hn] at h
    exact natRepr_not_ws h

theorem intRepr_ne_nil (n : Int) : intRepr n ≠ [] := by
  unfold intRepr
  by_cases hn : n < 0
  · simp [hn]
  · simp [hn, natRepr_ne_nil n.natAbs]

theorem safeIntOrNone_int (n : Int) : safeIntOrNone (.int n) = some (max 0 n) := by
  show (if (stripEnds (intRepr n)).isEmpty then Option.none
    else match pyIntOfChars (intRepr n) with
      | some m => some (max 0 m)
      | Option.none => Option.none) = some (max 0 n)
  rw [stripEnds_eq_self_of_all fun c hc => intRepr_not_ws hc]
  rw [List.isEmpty_eq_false.mpr (intRepr_ne_nil n)]
  rw [pyIntOfChars_intRepr n]
  simp

theorem safeIntOrNone_nonneg_int {n : Int} (h : 0 ≤ n) : safeIntOrNone (.int n) = some n := by
  rw [safeIntOrNone_int, max_eq_right h]

theorem safeIntOrNone_neg_int {n : Int} (h : n < 0) : safeIntOrNone (.int n) = some 0 := by
  rw [safeIntOrNone_int, max_eq_left (le_of_lt h)]

/-- `badForInt` instances used below. -/
theorem badForInt_dot : badForInt '.' := by
  refine ⟨by decide, by decide, by decide, by decide, by decide⟩

theorem safeIntOrNone_of_bad_mem (v : PyVal) (c : Char)
    (hm : c ∈ pyStr v) (hb : badForInt c) (hv : v ≠ .none) :
    safeIntOrNone v = Option.none := by
  have key : ∀ l : List Char, c ∈ l →
      (if (stripEnds l).isEmpty then Option.none
       else match pyIntOfChars l with
         | some m => some (max 0 m)
         | Option.none => Option.none) = Option.none := by
    intro l hml
    by_cases he : (stripEnds l).isEmpty
    · rw [if_pos he]
    · rw [if_neg he, pyIntOfChars_eq_none_of_bad hml hb]
  cases v with
  | none => exact absurd rfl hv
  | bool b => exact key _ hm
  | int n => exact key _ hm
  | float q => exact key _ hm
  | str s => exact key _ hm
  | list xs => exact key _ hm
  | dict es => exact key _ hm

theorem safeIntOrNone_float (q : Rat) : safeIntOrNone (.float q) = Option.none := by
  refine safeIntOrNone_of_bad_mem (.float q) '.' ?_ badForInt_dot (by simp)
  show '.' ∈ floatRepr q
  unfold floatRepr
  simp

theorem safeIntOrNone_bool (b : Bool) : safeIntOrNone (.bool b) = Option.none := by
  cases b <;> rfl

theorem safeIntOrNone_pynone : safeIntOrNone .none = Option.none := rfl

theorem safeIntOrNone_list (xs : List PyVal) : safeIntOrNone (.list xs) = Option.none := by
  refine safeIntOrNone_of_bad_mem (.list xs) '[' ?_ ?_ (by simp)
  · show '[' ∈ pyStr (.list xs)
    unfold pyStr
    simp
  · exact ⟨by decide, by decide, by decide, by decide, by decide⟩

theorem safeIntOrNone_dict (es : List (String × PyVal)) :
    safeIntOrNone (.dict es) = Option.none := by
  refine safeIntOrNone_of_bad_mem (.dict es) (Char.ofNat 123) ?_ ?_ (by simp)
  · show Char.ofNat 123 ∈ pyStr (.dict es)
    unfold pyStr
    simp
  · exact ⟨by decide, by decide, by decide, by decide, by decide⟩

theorem safeIntOrNone_str (s : String) :
    safeIntOrNone (.str s) =
      if (stripEnds s.data).isEmpty then Option.none
      else match pyIntOfChars s.data with
        | some m => some (max 0 m)
        | Option.none => Option.none := rfl

theorem safeIntOrNone_str_fail {s : String} (h : pyIntOfChars s.data = Option.none) :
    safeIntOrNone (.str s) = Option.none := by
  rw [safeIntOrNone_str, h]
  split <;> rfl

theorem safeIntOrNone_str_parse {s : String} {n : Int}
    (h : pyIntOfChars s.data = some n) : safeIntOrNone (.str s) = some (max 0 n) := by
  have hne : ¬(stripEnds s.data).isEmpty := by
    intro he
    unfold pyIntOfChars at h
    rw [List.isEmpty_iff.mp he] at h
    exact Option.noConfusion h
  rw [safeIntOrNone_str, if_neg hne, h]

/-- Whatever the input, the normalized jump index is `None` or a
non-negative integer. -/
theorem safeIntOrNone_bound (v : PyVal) :
    safeIntOrNone v = Option.none ∨ ∃ n : Int, safeIntOrNone v = some n ∧ 0 ≤ n := by
  unfold safeIntOrNone
  set valStr := (match v with | .none => ([] : List Char) | _ => pyStr v) with hv
  by_cases he : (stripEnds valStr).isEmpty
  · left; simp [he]
  · cases hp : pyIntOfChars valStr with
    | none => left; simp [he, hp]
    | some m =>
      right
      exact ⟨max 0 m, by simp [he, hp], le_max_left 0 m⟩

/-! ### Idempotence of the variant coercions

Re-running a subclass `__init__` on a params dict it already normalized
reproduces the dict and the validity verdict exactly.  This is the heart
of the `to_dict`/`from_dict` round trip. -/

/-- The params keys a coercion statement reads or writes. -/
def stepKeys : CoStep → List String
  | .checkInt k _ => [k]
  | .enum k _ _ => [k]
  | .floatClamp k _ => [k]
  | .reqStr k _ => [k]
  | .req2Str k1 k2 _ => [k1, k2]

/-- All keys touched by a coercion block. -/
def stepsKeys (l : List CoStep) : List String := (l.map stepKeys).flatten

/-- A coercion statement whose written-back default is a fixed point of
its own normalization (true of every statement the source contains). -/
def goodStep : CoStep → Prop
  | .enum allowedKey allowed dflt =>
    String.mk (lowerAscii dflt.data) = dflt ∧ allowed.contains dflt = true ∧ allowedKey ≠ ""
  | _ => True

instance : DecidablePred goodStep := by
  intro s
  cases s <;> simp only [goodStep] <;> infer_instance

theorem runStep_invalid_fst {s : CoStep} {p p₁ : Dict} {m : String}
    (hr : runStep s p = .invalidReturn p₁ m) : p₁ = p := by
  cases s with
  | checkInt k d =>
    cases hpt : pyToInt (dictGetD p k (.int d)) <;> simp [runStep, hpt] at hr
  | enum k allowed dflt =>
    by_cases hc : String.mk (lowerAscii (pyStr (dictGetD p k (.str dflt)))) ∈ allowed <;>
      simp [runStep, hc] at hr
  | floatClamp k d =>
    cases hpt : pyToFloat (dictGetD p k (.float d)) <;> simp [runStep, hpt] at hr
  | reqStr k msg =>
    by_cases hc : pyStr (dictGetD p k (.str "")) = []
    · simp [runStep, hc] at hr
      exact hr.1.symm
    · simp [runStep, hc] at hr
  | req2Str k1 k2 msg =>
    by_cases hc : pyStr (dictGetD p k1 (.str "")) = [] ∨ pyStr (dictGetD p k2 (.str "")) = []
    · simp [runStep, hc] at hr
      exact hr.1.symm
    · simp [runStep, hc] at hr

theorem runStep_raised_fst {s : CoStep} {p p₁ : Dict} {e : PyErr}
    (hr : runStep s p = .raised p₁ e) : p₁ = p := by
  cases s with
  | checkInt k d =>
    cases hpt : pyToInt (dictGetD p k (.int d)) with
    | ok v => simp [runStep, hpt] at hr
    | error e2 =>
      simp [runStep, hpt] at hr
      exact hr.1.symm
  | enum k allowed dflt =>
    by_cases hc : String.mk (lowerAscii (pyStr (dictGetD p k (.str dflt)))) ∈ allowed <;>
      simp [runStep, hc] at hr
  | floatClamp k d =>
    cases hpt : pyToFloat (dictGetD p k (.float d)) with
    | ok v => simp [runStep, hpt] at hr
    | error e2 =>
      simp [runStep, hpt] at hr
      exact hr.1.symm
  | reqStr k msg =>
    by_cases hc : pyStr (dictGetD p k (.str "")) = [] <;> simp [runStep, hc] at hr
  | req2Str k1 k2 msg =>
    by_cases hc : pyStr (dictGetD p k1 (.str "")) = [] ∨ pyStr (dictGetD p k2 (.str "")) = [] <;>
      simp [runStep, hc] at hr

theorem runStep_frame {s : CoStep} {p : Dict} {k : String} (h : k ∉ stepKeys s) :
    dictGet (runStep s p).dict k = dictGet p k := by
  cases s with
  | checkInt j d =>
    cases hpt : pyToInt (dictGetD p j (.int d)) <;> simp [runStep, StepOut.dict, hpt]
  | enum j allowed dflt =>
    have hjk : j ≠ k := Ne.symm (by simpa [stepKeys] using h)
    by_cases hc : String.mk (lowerAscii (pyStr (dictGetD p j (.str dflt)))) ∈ allowed <;>
      simp [runStep, StepOut.dict, hc, dictGet_dictSet_ne p k j _ hjk]
  | floatClamp j d =>
    have hjk : j ≠ k := Ne.symm (by simpa [stepKeys] using h)
    cases hpt : pyToFloat (dictGetD p j (.float d)) with
    | ok v => simp [runStep, StepOut.dict, hpt, dictGet_dictSet_ne p k j _ hjk]
    | error e => simp [runStep, StepOut.dict, hpt]
  | reqStr j msg =>
    by_cases hc : pyStr (dictGetD p j (.str "")) = [] <;> simp [runStep, StepOut.dict, hc]
  | req2Str k1 k2 msg =>
    by_cases hc : pyStr (dictGetD p k1 (.str "")) = [] ∨ pyStr (dictGetD p k2 (.str "")) = [] <;>
      simp [runStep, StepOut.dict, hc]

theorem runSteps_frame {steps : List CoStep} {p : Dict} {k : String}
    (h : k ∉ stepsKeys steps) : dictGet (runSteps steps p).dict k = dictGet p k := by
  induction steps generalizing p with
  | nil => rfl
  | cons s rest ih =>
    have hks : k ∉ stepKeys s := fun hm => h (by simp [stepsKeys, hm])
    have hkr : k ∉ stepsKeys rest := fun hm => h (by
      simp only [stepsKeys, List.map_cons, List.flatten] at *
      exact List.mem_append.mpr (Or.inr hm))
    show dictGet (match runStep s p with
      | .ok p' => runSteps rest p'
      | out => out).dict k = dictGet p k
    cases hr : runStep s p with
    | ok p₁ =>
      have hfr : dictGet p₁ k = dictGet p k := by
        have := runStep_frame (s := s) (p := p) hks
        rw [hr] at this
        exact this
      rw [ih (p := p₁) hkr]
      exact hfr
    | invalidReturn p₁ m =>
      obtain rfl := runStep_invalid_fst hr
      rfl
    | raised p₁ e =>
      obtain rfl := runStep_raised_fst hr
      rfl

theorem runStep_ok_again {s : CoStep} {p p₁ q : Dict}
    (hg : goodStep s) (hr : runStep s p = .ok p₁)
    (hq : ∀ k ∈ stepKeys s, dictGet q k = dictGet p₁ k) :
    runStep s q = .ok q := by
  cases s with
  | checkInt k d =>
    have hk : dictGet q k = dictGet p₁ k := hq k (by simp [stepKeys])
    cases hpt : pyToInt (dictGetD p k (.int d)) with
    | error e => simp [runStep, hpt] at hr
    | ok v =>
      simp [runStep, hpt] at hr
      subst hr
      have hgd : dictGetD q k (.int d) = dictGetD p k (.int d) := by
        unfold dictGetD
        rw [hk]
      simp [runStep, hgd, hpt]
  | enum k allowed dflt =>
    have hk : dictGet q k = dictGet p₁ k := hq k (by simp [stepKeys])
    by_cases hc : String.mk (lowerAscii (pyStr (dictGetD p k (.str dflt)))) ∈ allowed
    · simp [runStep, hc] at hr
      subst hr
      have hgd : dictGetD q k (.str dflt) = dictGetD p k (.str dflt) := by
        unfold dictGetD
        rw [hk]
      simp [runStep, hgd, hc]
    · simp [runStep, hc] at hr
      have hv : dictGet q k = some (.str dflt) := by
        rw [hk, ← hr, dictGet_dictSet_self]
      have hgd : dictGetD q k (.str dflt) = .str dflt := by
        unfold dictGetD
        rw [hv]
        rfl
      have hfix : String.mk (lowerAscii (pyStr (.str dflt))) = dflt := hg.1
      have hmem : dflt ∈ allowed := by
        have := hg.2.1
        simpa using this
      simp [runStep, hgd, hfix, hmem]
  | floatClamp k d =>
    have hk : dictGet q k = dictGet p₁ k := hq k (by simp [stepKeys])
    cases hpt : pyToFloat (dictGetD p k (.float d)) with
    | error e => simp [runStep, hpt] at hr
    | ok v =>
      simp [runStep, hpt] at hr
      have hv : dictGet q k = some (.float (max 0 v)) := by
        rw [hk, ← hr, dictGet_dictSet_self]
      have hgd : dictGetD q k (.float d) = .float (max 0 v) := by
        unfold dictGetD
        rw [hv]
        rfl
      have hmax : max 0 (max 0 v) = max 0 v := max_eq_right (le_max_left 0 v)
      simp [runStep, pyToFloat, hgd, hmax, dictSet_of_dictGet q k _ hv]
  | reqStr k msg =>
    have hk : dictGet q k = dictGet p₁ k := hq k (by simp [stepKeys])
    by_cases hc : pyStr (dictGetD p k (.str "")) = []
    · simp [runStep, hc] at hr
    · simp [runStep, hc] at hr
      subst hr
      have hgd : dictGetD q k (.str "") = dictGetD p k (.str "") := by
        unfold dictGetD
        rw [hk]
      simp [runStep, hgd, hc]
  | req2Str k1 k2 msg =>
    have hk1 : dictGet q k1 = dictGet p₁ k1 := hq k1 (by simp [stepKeys])
    have hk2 : dictGet q k2 = dictGet p₁ k2 := hq k2 (by simp [stepKeys])
    by_cases hc : pyStr (dictGetD p k1 (.str "")) = [] ∨ pyStr (dictGetD p k2 (.str "")) = []
    · simp [runStep, hc] at hr
    · simp [runStep, hc] at hr
      subst hr
      have hgd1 : dictGetD q k1 (.str "") = dictGetD p k1 (.str "") := by
        unfold dictGetD
        rw [hk1]
      have hgd2 : dictGetD q k2 (.str "") = dictGetD p k2 (.str "") := by
        unfold dictGetD
        rw [hk2]
      simp [runStep, hgd1, hgd2, hc]

/-- Re-running a coercion block on the params dict it left behind
reproduces the same outcome: the dict is unchanged and the same
validity verdict or exception results. -/
theorem runSteps_idem {steps : List CoStep} (hg : ∀ s ∈ steps, goodStep s)
    (hnd : (stepsKeys steps).Nodup) :
    ∀ {p : Dict} {out : StepOut}, runSteps steps p = out →
      runSteps steps out.dict = out := by
  induction steps with
  | nil =>
    intro p out h
    rw [show out = .ok p from h.symm]
    rfl
  | cons s rest ih =>
    intro p out h
    have hnd' : (stepsKeys rest).Nodup ∧ ∀ k ∈ stepKeys s, k ∉ stepsKeys rest := by
      have : (stepKeys s ++ stepsKeys rest).Nodup := by
        simpa [stepsKeys] using hnd
      rw [List.nodup_append] at this
      exact ⟨this.2.1, fun k hk hm => this.2.2 hk hm⟩
    cases hr : runStep s p with
    | ok p₁ =>
      have hrest : runSteps rest p₁ = out := by
        rw [← h]
        show runSteps rest p₁ = (match runStep s p with
          | .ok p' => runSteps rest p'
          | out => out)
        rw [hr]
      have hfst : (runSteps rest p₁).dict = out.dict := by rw [hrest]
      have hq : ∀ k ∈ stepKeys s, dictGet out.dict k = dictGet p₁ k := by
        intro k hk
        rw [← hfst]
        exact runSteps_frame (hnd'.2 k hk)
      have hs2 : runStep s out.dict = .ok out.dict :=
        runStep_ok_again (hg s (by simp)) hr hq
      show (match runStep s out.dict with
        | .ok p' => runSteps rest p'
        | o => o) = out
      rw [hs2]
      exact ih (fun t ht => hg t (by simp [ht])) hnd'.1 hrest
    | invalidReturn p₁ m =>
      obtain rfl := runStep_invalid_fst hr
      have hout : out = .invalidReturn p₁ m := by
        rw [← h]
        show (match runStep s p₁ with
          | .ok p' => runSteps rest p'
          | o => o) = .invalidReturn p₁ m
        rw [hr]
      subst hout
      show (match runStep s p₁ with
        | .ok p' => runSteps rest p'
        | o => o) = .invalidReturn p₁ m
      rw [hr]
    | raised p₁ e =>
      obtain rfl := runStep_raised_fst hr
      have hout : out = .raised p₁ e := by
        rw [← h]
        show (match runStep s p₁ with
          | .ok p' => runSteps rest p'
          | o => o) = .raised p₁ e
        rw [hr]
      subst hout
      show (match runStep s p₁ with
        | .ok p' => runSteps rest p'
        | o => o) = .raised p₁ e
      rw [hr]

theorem runVariant_eq_ok {c : PyErr → Bool} {steps : List CoStep} {p q : Dict}
    (hr : runSteps steps p = .ok q) : runVariant c steps p = .ok (q, Option.none) := by
  unfold runVariant
  rw [hr]

theorem runVariant_eq_invalid {c : PyErr → Bool} {steps : List CoStep} {p q : Dict}
    {m : String} (hr : runSteps steps p = .invalidReturn q m) :
    runVariant c steps p = .ok (q, some m) := by
  unfold runVariant
  rw [hr]

theorem runVariant_eq_raised {c : PyErr → Bool} {steps : List CoStep} {p q : Dict}
    {e : PyErr} (hr : runSteps steps p = .raised q e) :
    runVariant c steps p = if c e then .ok (q, some (errMsgOf e)) else .error e := by
  unfold runVariant
  rw [hr]

/-- Re-running a variant `__init__` on the params dict of a construction
that completed (validly or not) reproduces the dict and the verdict. -/
theorem runVariant_idem {c : PyErr → Bool} {steps : List CoStep}
    (hg : ∀ s ∈ steps, goodStep s) (hnd : (stepsKeys steps).Nodup)
    {p p' : Dict} {err : Option String}
    (h : runVariant c steps p = .ok (p', err)) : runVariant c steps p' = .ok (p', err) := by
  cases hr : runSteps steps p with
  | ok q =>
    rw [runVariant_eq_ok hr, Except.ok.injEq, Prod.mk.injEq] at h
    obtain ⟨rfl, rfl⟩ := h
    exact runVariant_eq_ok (runSteps_idem hg hnd hr)
  | invalidReturn q m =>
    rw [runVariant_eq_invalid hr, Except.ok.injEq, Prod.mk.injEq] at h
    obtain ⟨rfl, rfl⟩ := h
    exact runVariant_eq_invalid (runSteps_idem hg hnd hr)
  | raised q e =>
    rw [runVariant_eq_raised hr] at h
    by_cases hce : c e
    · rw [if_pos hce, Except.ok.injEq, Prod.mk.injEq] at h
      obtain ⟨rfl, rfl⟩ := h
      have h2 : runSteps steps q = .raised q e := runSteps_idem hg hnd hr
      rw [runVariant_eq_raised h2, if_pos hce]
    · rw [if_neg hce] at h
      exact Except.noConfusion h

/-- Every coercion block of every variant is good and touches pairwise
distinct keys. -/
theorem stepsFor_good (ty : String) :
    (∀ s ∈ stepsFor ty, goodStep s) ∧ (stepsKeys (stepsFor ty)).Nodup := by
  unfold stepsFor
  repeat' split
  all_goals exact ⟨by decide, by decide⟩

/-- Idempotence of the variant coercion dispatch. -/
theorem coerceParams_idem {ty : String} {p p' : Dict} {err : Option String}
    (h : coerceParams ty p = .ok (p', err)) : coerceParams ty p' = .ok (p', err) :=
  runVariant_idem (stepsFor_good ty).1 (stepsFor_good ty).2 h

/-! ### Round-trip lemmas for the individual Action fields -/

theorem condIdNorm_round (v : PyVal) :
    condIdNorm (optStrPy (condIdNorm v)) = condIdNorm v := by
  cases v with
  | str s =>
    by_cases he : (stripEnds s.data).isEmpty
    · simp [condIdNorm, he, optStrPy]
    · have hidem : stripEnds (String.mk (stripEnds s.data)).data = stripEnds s.data :=
        stripEnds_stripEnds s.data
      simp [condIdNorm, he, optStrPy, hidem]
  | none => rfl
  | bool b => rfl
  | int n => rfl
  | float q => rfl
  | list xs => rfl
  | dict es => rfl

theorem safeIntOrNone_round (v : PyVal) :
    safeIntOrNone (optIntPy (safeIntOrNone v)) = safeIntOrNone v := by
  rcases safeIntOrNone_bound v with h | ⟨n, h, hn⟩
  · rw [h]
    rfl
  · rw [h]
    show safeIntOrNone (.int n) = some n
    exact safeIntOrNone_nonneg_int hn

theorem fallbackNormInit_spec (v : PyVal) :
    fallbackNormInit v = Option.none ∨
      ∃ l, fallbackNormInit v = some l ∧ l ≠ [] ∧ ∀ i ∈ l, fbEntryOk i = true := by
  cases v with
  | list xs =>
    by_cases he : (xs.filter fbEntryOk).isEmpty
    · left
      simp [fallbackNormInit, he]
    · right
      refine ⟨xs.filter fbEntryOk, by simp [fallbackNormInit, he], ?_, ?_⟩
      · intro hnil
        rw [hnil] at he
        exact he rfl
      · intro i hi
        exact List.of_mem_filter hi
  | none => left; rfl
  | bool b => left; rfl
  | int n => left; rfl
  | float q => left; rfl
  | str s => left; rfl
  | dict es => left; rfl

theorem fallback_round (v : PyVal) :
    fallbackNormInit (optListPy (fallbackNormFromDict (optListPy (fallbackNormInit v)))) =
      fallbackNormInit v := by
  rcases fallbackNormInit_spec v with h | ⟨l, h, hne, hall⟩
  · rw [h]
    rfl
  · rw [h]
    show fallbackNormInit (optListPy (fallbackNormFromDict (.list l))) = some l
    have hdicts : ∀ i ∈ l, isDictVal i = true := by
      intro i hi
      have := hall i hi
      cases i <;> first | rfl | simp [fbEntryOk] at this
    have h1 : fallbackNormFromDict (.list l) = some l := by
      have hfilter : l.filter isDictVal = l := List.filter_eq_self.mpr hdicts
      simp [fallbackNormFromDict, hfilter, hne]
    rw [h1]
    show fallbackNormInit (.list l) = some l
    have hfilter : l.filter fbEntryOk = l := List.filter_eq_self.mpr hall
    simp [fallbackNormInit, hfilter, hne]

/-- The invariants a successfully deserialized Action satisfies, phrased
as fixed-point equations of the normalizers. -/
def ActionInv (a : ActionData) : Prop :=
  condIdNorm (optStrPy a.conditionId) = a.conditionId ∧
  safeIntOrNone (optIntPy a.nextIfMet) = a.nextIfMet ∧
  safeIntOrNone (optIntPy a.nextIfNotMet) = a.nextIfNotMet ∧
  fallbackNormInit (optListPy (fallbackNormFromDict (optListPy a.fallback))) = a.fallback ∧
  coerceParams a.type a.params = .ok (a.params, a.validationError) ∧
  a.isValid = a.validationError.isNone ∧
  knownTypes.contains a.type = true ∧
  a.type ≠ ""

/-- Unfolding lemma: constructing a concrete subclass on dict params
with a nonempty type tag reduces to the variant coercion dispatch on the
stored dict. -/
theorem mkVariant_dict_eq (ty : String) (hty : ty ≠ "") (es : Dict)
    (conditionId nextMet nextNotMet isAbs fallback : PyVal) :
    Action.mkVariant ty (.dict es) conditionId nextMet nextNotMet isAbs fallback =
      match coerceParams ty es with
      | .error e => .error e
      | .ok r => .ok
          { type := ty
            params := r.1
            conditionId := condIdNorm conditionId
            nextIfMet := safeIntOrNone nextMet
            nextIfNotMet := safeIntOrNone nextNotMet
            isAbsolute := pyTruthy isAbs
            fallback := fallbackNormInit fallback
            isValid := r.2.isNone
            validationError := r.2 } := by
  unfold Action.mkVariant Action.initBase
  rw [if_neg hty]
  rfl

/-- Every action `from_dict` hands back satisfies the fixed-point
invariants. -/
theorem fromDict_inv {d : PyVal} {a : ActionData} (h : Action.fromDict d = .ok a) :
    ActionInv a := by
  cases d with
  | none => exact Except.noConfusion h
  | bool b => exact Except.noConfusion h
  | int n => exact Except.noConfusion h
  | float q => exact Except.noConfusion h
  | str s => exact Except.noConfusion h
  | list xs => exact Except.noConfusion h
  | dict es =>
    simp only [Action.fromDict] at h
    cases hty : dictGetD es "type" PyVal.none with
    | str ty =>
      rw [hty] at h
      replace h : (if ty = "" then
          Except.error (PyErr.valueError "Action data must contain a non-empty 'type' string.")
        else if knownTypes.contains ty = true then
          (match Action.mkVariant ty
            (match dictGetD es "params" (PyVal.dict []) with
             | PyVal.dict _ => dictGetD es "params" (PyVal.dict [])
             | _ => PyVal.dict [])
            (optStrPy (condIdNorm (dictGetD es "condition_id" PyVal.none)))
            (optIntPy (safeIntOrNone (dictGetD es "next_action_index_if_condition_met" PyVal.none)))
            (optIntPy (safeIntOrNone (dictGetD es "next_action_index_if_condition_not_met" PyVal.none)))
            (dictGetD es "is_absolute" (PyVal.bool false))
            (optListPy (fallbackNormFromDict (dictGetD es "fallback_action_sequence" PyVal.none))) with
          | Except.ok a2 => Except.ok a2
          | Except.error (PyErr.valueError m) => Except.error (PyErr.valueError m)
          | Except.error _ =>
            Except.error (PyErr.valueError
              ("Could not create Action '" ++ ty ++ "' from dictionary data.")))
        else Action.abstractNew) = Except.ok a := h
      by_cases hemp : ty = ""
      · rw [if_pos hemp] at h
        exact Except.noConfusion h
      · rw [if_neg hemp] at h
        by_cases hk : knownTypes.contains ty = true
        · rw [if_pos hk] at h
          obtain ⟨ps, hps⟩ : ∃ ps, (match dictGetD es "params" (PyVal.dict []) with
              | PyVal.dict _ => dictGetD es "params" (PyVal.dict [])
              | _ => PyVal.dict []) = PyVal.dict ps := by
            cases dictGetD es "params" (PyVal.dict []) with
            | dict ps => exact ⟨ps, rfl⟩
            | none => exact ⟨[], rfl⟩
            | bool b => exact ⟨[], rfl⟩
            | int n => exact ⟨[], rfl⟩
            | float q => exact ⟨[], rfl⟩
            | str s => exact ⟨[], rfl⟩
            | list xs => exact ⟨[], rfl⟩
          rw [hps, mkVariant_dict_eq ty hemp ps] at h
          cases hco : coerceParams ty ps with
          | error e =>
            rw [hco] at h
            cases e with
            | valueError m =>
              replace h : Except.error (PyErr.valueError m) = Except.ok a := h
              exact Except.noConfusion h
            | typeError m =>
              replace h : Except.error (PyErr.valueError
                  ("Could not create Action '" ++ ty ++ "' from dictionary data.")) =
                Except.ok a := h
              exact Except.noConfusion h
            | overflowError m =>
              replace h : Except.error (PyErr.valueError
                  ("Could not create Action '" ++ ty ++ "' from dictionary data.")) =
                Except.ok a := h
              exact Except.noConfusion h
          | ok r =>
            rw [hco] at h
            replace h : Except.ok
                { type := ty
                  params := r.1
                  conditionId :=
                    condIdNorm (optStrPy (condIdNorm (dictGetD es "condition_id" PyVal.none)))
                  nextIfMet := safeIntOrNone (optIntPy (safeIntOrNone
                    (dictGetD es "next_action_index_if_condition_met" PyVal.none)))
                  nextIfNotMet := safeIntOrNone (optIntPy (safeIntOrNone
                    (dictGetD es "next_action_index_if_condition_not_met" PyVal.none)))
                  isAbsolute := pyTruthy (dictGetD es "is_absolute" (PyVal.bool false))
                  fallback := fallbackNormInit (optListPy (fallbackNormFromDict
                    (dictGetD es "fallback_action_sequence" PyVal.none)))
                  isValid := r.2.isNone
                  validationError := r.2 } = Except.ok a := h
            rw [Except.ok.injEq] at h
            subst h
            refine ⟨condIdNorm_round _, safeIntOrNone_round _, safeIntOrNone_round _,
              fallback_round _, ?_, rfl, hk, hemp⟩
            exact coerceParams_idem (show coerceParams ty ps = .ok (r.1, r.2) from hco)
        · rw [if_neg hk] at h
          exact Except.noConfusion h
    | none => rw [hty] at h; exact Except.noConfusion h
    | bool b => rw [hty] at h; exact Except.noConfusion h
    | int n => rw [hty] at h; exact Except.noConfusion h
    | float q => rw [hty] at h; exact Except.noConfusion h
    | list xs => rw [hty] at h; exact Except.noConfusion h
    | dict es2 => rw [hty] at h; exact Except.noConfusion h

/-- Serialization followed by deserialization reproduces the action
exactly. -/
theorem fromDict_toDict {a : ActionData} (hinv : ActionInv a) :
    Action.fromDict (Action.toDict a) = .ok a := by
  obtain ⟨hc, hm, hnm, hfb, hco, hv, hk, hty⟩ := hinv
  simp only [Action.toDict, Action.fromDict]
  have h1 : dictGetD [("type", PyVal.str a.type),
      ("params", PyVal.dict a.params),
      ("condition_id", optStrPy a.conditionId),
      ("next_action_index_if_condition_met", optIntPy a.nextIfMet),
      ("next_action_index_if_condition_not_met", optIntPy a.nextIfNotMet),
      ("is_absolute", PyVal.bool a.isAbsolute),
      ("fallback_action_sequence", optListPy a.fallback)] "type" PyVal.none
      = PyVal.str a.type := rfl
  rw [h1]
  show (if a.type = "" then
      Except.error (PyErr.valueError "Action data must contain a non-empty 'type' string.")
    else if knownTypes.contains a.type = true then
      (match Action.mkVariant a.type (PyVal.dict a.params)
        (optStrPy (condIdNorm (optStrPy a.conditionId)))
        (optIntPy (safeIntOrNone (optIntPy a.nextIfMet)))
        (optIntPy (safeIntOrNone (optIntPy a.nextIfNotMet)))
        (PyVal.bool a.isAbsolute)
        (optListPy (fallbackNormFromDict (optListPy a.fallback))) with
      | Except.ok a2 => Except.ok a2
      | Except.error (PyErr.valueError m) => Except.error (PyErr.valueError m)
      | Except.error _ =>
        Except.error (PyErr.valueError
          ("Could not create Action '" ++ a.type ++ "' from dictionary data.")))
    else Action.abstractNew) = Except.ok a
  rw [if_neg hty, if_pos hk, hc, hm, hnm,
    mkVariant_dict_eq a.type hty a.params _ _ _ _ _, hco]
  show Except.ok
      { type := a.type
        params := a.params
        conditionId := condIdNorm (optStrPy a.conditionId)
        nextIfMet := safeIntOrNone (optIntPy a.nextIfMet)
        nextIfNotMet := safeIntOrNone (optIntPy a.nextIfNotMet)
        isAbsolute := pyTruthy (PyVal.bool a.isAbsolute)
        fallback := fallbackNormInit (optListPy (fallbackNormFromDict (optListPy a.fallback)))
        isValid := (a.validationError).isNone
        validationError := a.validationError } = Except.ok a
  rw [hc, hm, hnm, hfb]
  show Except.ok
      { type := a.type
        params := a.params
        conditionId := a.conditionId
        nextIfMet := a.nextIfMet
        nextIfNotMet := a.nextIfNotMet
        isAbsolute := a.isAbsolute
        fallback := a.fallback
        isValid := (a.validationError).isNone
        validationError := a.validationError } = Except.ok a
  rw [← hv]

/-! ### Claim theorems -/

/-- C1 (code bug): the claim says `create_action(data)` never raises and
returns tagged placeholder Actions for non-dict input, failing dicts and
unknown types.  In the code, every one of those fallback branches
instantiates the abstract base class `Action` directly, which raises
`TypeError: Can't instantiate abstract class Action` (the class derives
from `ABC` with `_execute_core_logic` abstract).  This theorem evaluates
the embedding at the failing inputs: `create_action(None)`,
`create_action({"type": "teleport", "params": {}})` and
`create_action({})` all raise `TypeError` instead of returning the
`invalid_data_type_for_factory` / base-placeholder /
`error_creating_<type>` Actions the claim (and the code's own log
message at line 240) promises. -/
theorem c1_createAction_raises_typeError :
    createAction PyVal.none =
      .error (.typeError "cannot instantiate abstract class Action with abstract method") ∧
    createAction (.dict [("type", .str "teleport"), ("params", .dict [])]) =
      .error (.typeError "cannot instantiate abstract class Action with abstract method") ∧
    createAction (.dict []) =
      .error (.typeError "cannot instantiate abstract class Action with abstract method") :=
  ⟨rfl, rfl, rfl⟩

/-- C2 (counterexample): the claim states a negative jump-index value
normalizes to `None`; in fact `safe_int_or_none(-5)` parses the int and
applies `max(0, -5) = 0`, storing an explicit jump to index 0. -/
theorem c2_counterexample_negative_clamps_to_zero :
    safeIntOrNone (.int (-5)) = some 0 ∧
    safeIntOrNone (.int (-5)) ≠ Option.none ∧
    (Action.initBase "click" (.dict []) PyVal.none (.int (-5)) PyVal.none
        (.bool false) PyVal.none).map (fun a => a.nextIfMet) = .ok (some 0) := by
  have h0 : safeIntOrNone (.int (-5)) = some 0 := rfl
  refine ⟨h0, ?_, rfl⟩
  rw [h0]
  intro h
  exact Option.noConfusion h

/-- C2 (amended): non-numeric, unparseable, `None`, float, bool, list
and dict jump-index inputs normalize to `None`; a negative integer is
clamped to 0 by `max(0, ·)`; a valid non-negative integer (including its
string form) is stored unchanged; and every constructed Action has each
jump-index field equal to `None` or an integer `≥ 0`. -/
theorem c2_amended_jump_index_normalization :
    (∀ s : String, pyIntOfChars s.data = Option.none →
      safeIntOrNone (.str s) = Option.none) ∧
    (∀ q : Rat, safeIntOrNone (.float q) = Option.none) ∧
    (∀ b : Bool, safeIntOrNone (.bool b) = Option.none) ∧
    safeIntOrNone PyVal.none = Option.none ∧
    (∀ xs, safeIntOrNone (.list xs) = Option.none) ∧
    (∀ es, safeIntOrNone (.dict es) = Option.none) ∧
    (∀ n : Int, n < 0 → safeIntOrNone (.int n) = some 0) ∧
    (∀ n : Int, 0 ≤ n → safeIntOrNone (.int n) = some n) ∧
    (∀ (s : String) (n : Int), pyIntOfChars s.data = some n → 0 ≤ n →
      safeIntOrNone (.str s) = some n) ∧
    (∀ v, safeIntOrNone v = Option.none ∨ ∃ n, safeIntOrNone v = some n ∧ 0 ≤ n) ∧
    (∀ ty params cid nm nnm ab fb a,
      Action.initBase ty params cid nm nnm ab fb = .ok a →
      (a.nextIfMet = Option.none ∨ ∃ n, a.nextIfMet = some n ∧ 0 ≤ n) ∧
      (a.nextIfNotMet = Option.none ∨ ∃ n, a.nextIfNotMet = some n ∧ 0 ≤ n)) := by
  refine ⟨fun s h => safeIntOrNone_str_fail h, safeIntOrNone_float, safeIntOrNone_bool,
    safeIntOrNone_pynone, safeIntOrNone_list, safeIntOrNone_dict,
    fun n h => safeIntOrNone_neg_int h, fun n h => safeIntOrNone_nonneg_int h,
    ?_, safeIntOrNone_bound, ?_⟩
  · intro s n hp hn
    rw [safeIntOrNone_str_parse hp, max_eq_right hn]
  · intro ty params cid nm nnm ab fb a h
    unfold Action.initBase at h
    by_cases hemp : ty = ""
    · rw [if_pos hemp] at h
      exact Except.noConfusion h
    · rw [if_neg hemp] at h
      cases hip : initParamsNorm params with
      | error e =>
        rw [hip] at h
        replace h : Except.error e = Except.ok a := h
        exact Except.noConfusion h
      | ok ps =>
        rw [hip] at h
        replace h : Except.ok
            { type := ty
              params := ps
              conditionId := condIdNorm cid
              nextIfMet := safeIntOrNone nm
              nextIfNotMet := safeIntOrNone nnm
              isAbsolute := pyTruthy ab
              fallback := fallbackNormInit fb
              isValid := true
              validationError := Option.none } = Except.ok a := h
        rw [Except.ok.injEq] at h
        subst h
        exact ⟨safeIntOrNone_bound nm, safeIntOrNone_bound nnm⟩

/-- C2 witness: concrete instances of the amended claim — `"abc"` fails
to parse and yields `None`; `"2"` parses and is stored as 2. -/
theorem c2_amended_witness :
    safeIntOrNone (.str "abc") = Option.none ∧ safeIntOrNone (.str "2") = some 2 := by
  obtain ⟨h1, -, -, -, -, -, -, -, h9, -, -⟩ := c2_amended_jump_index_normalization
  exact ⟨h1 "abc" rfl, h9 "2" 2 rfl (by decide)⟩

/-- C9: every float jump-index input (e.g. 2.0 or 2.5) and every boolean
becomes `None` under the `str()`-then-`int()` normalization, because
`str(float)` contains a decimal point and `str(bool)` is `True`/`False`,
neither of which `int()` accepts; the string `"2"` still parses to 2. -/
theorem c9_float_bool_jump_index_none :
    (∀ q : Rat, safeIntOrNone (.float q) = Option.none) ∧
    (∀ b : Bool, safeIntOrNone (.bool b) = Option.none) ∧
    safeIntOrNone (.float 2) = Option.none ∧
    safeIntOrNone (.float (5 / 2)) = Option.none ∧
    safeIntOrNone (.str "2") = some 2 ∧
    (Action.initBase "wait" (.dict []) PyVal.none (.float 2) PyVal.none
        (.bool false) PyVal.none).map (fun a => a.nextIfMet) = .ok Option.none := by
  exact ⟨safeIntOrNone_float, safeIntOrNone_bool, safeIntOrNone_float 2,
    safeIntOrNone_float (5 / 2), rfl, rfl⟩

/-- C10: `is_absolute` is stored as its Python truthiness `bool(value)`:
any truthy value (including the string `"false"`, the integer 1, a
nonempty list) becomes `True`, any falsy value (`None`, 0, `""`) becomes
`False`, and construction never rejects on `is_absolute` — whether
`__init__` succeeds (which requires `params` to be `None` or a dict,
else the shadowed-`type` f-string raises) does not depend on the
`is_absolute` value at all; `to_dict` serializes the coerced boolean. -/
theorem c10_is_absolute_truthiness :
    (∀ (ty : String) (params cid nm nnm v fb : PyVal), ty ≠ "" →
      (params = PyVal.none ∨ ∃ es, params = .dict es) →
      ∃ a, Action.initBase ty params cid nm nnm v fb = .ok a ∧
        a.isAbsolute = pyTruthy v) ∧
    (∀ (ty : String) (params cid nm nnm v w fb : PyVal),
      (∃ e, Action.initBase ty params cid nm nnm v fb = .error e) →
      (∃ e, Action.initBase ty params cid nm nnm w fb = .error e)) ∧
    pyTruthy (.str "false") = true ∧
    pyTruthy (.int 1) = true ∧
    pyTruthy (.list [PyVal.int 1]) = true ∧
    pyTruthy PyVal.none = false ∧
    pyTruthy (.int 0) = false ∧
    pyTruthy (.str "") = false ∧
    (Action.fromDict (.dict [("type", .str "click"), ("is_absolute", .str "false")])).map
      (fun a => a.isAbsolute) = .ok true ∧
    (Action.fromDict (.dict [("type", .str "click"), ("is_absolute", .str "false")])).map
      Action.toDict = .ok (.dict
        [("type", .str "click"),
         ("params", .dict [("delay_before", .float 0), ("hold_duration", .float 0)]),
         ("condition_id", PyVal.none),
         ("next_action_index_if_condition_met", PyVal.none),
         ("next_action_index_if_condition_not_met", PyVal.none),
         ("is_absolute", .bool true),
         ("fallback_action_sequence", PyVal.none)]) := by
  refine ⟨?_, ?_, rfl, rfl, rfl, rfl, rfl, rfl, rfl, rfl⟩
  · intro ty params cid nm nnm v fb hty hp
    unfold Action.initBase
    simp only [if_neg hty]
    rcases hp with rfl | ⟨es, rfl⟩
    · exact ⟨_, rfl, rfl⟩
    · exact ⟨_, rfl, rfl⟩
  · intro ty params cid nm nnm v w fb hex
    obtain ⟨e, he⟩ := hex
    unfold Action.initBase at he ⊢
    by_cases hty : ty = ""
    · rw [if_pos hty]
      exact ⟨_, rfl⟩
    · rw [if_neg hty] at he ⊢
      cases hip : initParamsNorm params with
      | error e2 => exact ⟨e2, rfl⟩
      | ok ps =>
        rw [hip] at he
        replace he : Except.ok
            { type := ty
              params := ps
              conditionId := condIdNorm cid
              nextIfMet := safeIntOrNone nm
              nextIfNotMet := safeIntOrNone nnm
              isAbsolute := pyTruthy v
              fallback := fallbackNormInit fb
              isValid := true
              validationError := Option.none } =
          (Except.error e : Except PyErr ActionData) := he
        exact Except.noConfusion he

/-- C10 witness: the universally quantified part instantiated at a
concrete non-boolean truthy `is_absolute` with dict params. -/
theorem c10_is_absolute_witness :
    ∃ a, Action.initBase "click" (.dict []) PyVal.none PyVal.none PyVal.none
        (.str "false") PyVal.none = .ok a ∧ a.isAbsolute = pyTruthy (.str "false") :=
  c10_is_absolute_truthiness.1 "click" (.dict []) PyVal.none PyVal.none PyVal.none
    (.str "false") PyVal.none (by decide) (Or.inr ⟨[], rfl⟩)

/-- C3: fail-closed condition gating.  For an Action with a
`condition_id` (and the fresh `None` condition cache every construction
leaves behind), a missing manager, a manager without
`get_shared_condition_by_id`, an unresolved lookup, or a raising
`check()` each make `execute` return `False` with the core logic never
run and no `simulate_*` call made — for every stop-event state and
whatever the variant's core logic would have done. -/
theorem c3_fail_closed_condition_gating :
    ∀ (a : ActionData) (cid : String) (stop : Bool) (core : CoreOutcome)
      (cache : Option LookupResult),
      a.conditionId = some cid →
      ((Action.execute a cache Option.none stop core).result = .ok false ∧
        (Action.execute a cache Option.none stop core).simCalls = 0 ∧
        (Action.execute a cache Option.none stop core).coreRan = false) ∧
      (∀ m : CondManager, m.hasGetShared = false →
        (Action.execute a cache (some m) stop core).result = .ok false ∧
        (Action.execute a cache (some m) stop core).simCalls = 0 ∧
        (Action.execute a cache (some m) stop core).coreRan = false) ∧
      (∀ m : CondManager, m.hasGetShared = true → cache = Option.none →
        m.lookup cid = Option.none →
        (Action.execute a cache (some m) stop core).result = .ok false ∧
        (Action.execute a cache (some m) stop core).simCalls = 0 ∧
        (Action.execute a cache (some m) stop core).coreRan = false) ∧
      (∀ (m : CondManager) (c : Condition) (e : PyErr),
        m.hasGetShared = true → cache = Option.none →
        m.lookup cid = some (.cond c) → c.checkResult = .error e →
        (Action.execute a cache (some m) stop core).result = .ok false ∧
        (Action.execute a cache (some m) stop core).simCalls = 0 ∧
        (Action.execute a cache (some m) stop core).coreRan = false) := by
  intro a cid stop core cache hcid
  refine ⟨?_, ?_, ?_, ?_⟩
  · simp [Action.execute, hcid]
  · intro m hm
    simp [Action.execute, hcid, hm]
  · intro m hm hcache hlk
    subst hcache
    simp [Action.execute, hcid, hm, hlk]
  · intro m c e hm hcache hlk hchk
    subst hcache
    simp [Action.execute, hcid, hm, hlk, hchk]

/-- C3 witness data: an action gated on condition id `"c1"`, a core that
would perform one simulate call, and a manager whose condition raises. -/
def gatedAction : ActionData :=
  { type := "click", params := [], conditionId := some "c1",
    nextIfMet := Option.none, nextIfNotMet := Option.none,
    isAbsolute := false, fallback := Option.none,
    isValid := true, validationError := Option.none }

/-- A core logic that would make one bridge call if it ran. -/
def oneSimCore : CoreOutcome := { simCalls := 1, raises := Option.none }

/-- A manager whose lookup finds a condition whose `check()` raises. -/
def raisingMgr : CondManager :=
  { hasGetShared := true,
    lookup := fun _ =>
      some (.cond { id := some "c1", name := "cond", type := "color_match",
                    checkResult := .error (.valueError "boom") }) }

/-- C3 witness: the raising-check case instantiated concretely. -/
theorem c3_fail_closed_witness :
    (Action.execute gatedAction Option.none (some raisingMgr) false oneSimCore).result =
      .ok false ∧
    (Action.execute gatedAction Option.none (some raisingMgr) false oneSimCore).simCalls = 0 ∧
    (Action.execute gatedAction Option.none (some raisingMgr) false oneSimCore).coreRan = false :=
  (c3_fail_closed_condition_gating gatedAction "c1" false oneSimCore Option.none rfl).2.2.2
    raisingMgr { id := some "c1", name := "cond", type := "color_match",
                 checkResult := .error (.valueError "boom") }
    (.valueError "boom") rfl rfl rfl rfl

/-- C8: pre-emption ordering.  If the job stop event is already set when
`execute` is called and the condition outcome is met (no `condition_id`,
or the resolved shared condition's `check()` returns `True`), `execute`
returns `True` without running the variant core logic and without any
`simulate_*` call. -/
theorem c8_preemption_before_core :
    ∀ (a : ActionData) (cache : Option LookupResult) (mgr : Option CondManager)
      (core : CoreOutcome),
      (a.conditionId = Option.none →
        Action.execute a cache mgr true core =
          { result := .ok true, coreRan := false, simCalls := 0, cacheAfter := cache }) ∧
      (∀ (cid : String) (m : CondManager) (c : Condition),
        a.conditionId = some cid → cache = Option.none → mgr = some m →
        m.hasGetShared = true → m.lookup cid = some (.cond c) →
        c.checkResult = .ok true →
        (Action.execute a cache mgr true core).result = .ok true ∧
        (Action.execute a cache mgr true core).coreRan = false ∧
        (Action.execute a cache mgr true core).simCalls = 0) := by
  intro a cache mgr core
  constructor
  · intro hnone
    simp [Action.execute, hnone]
  · intro cid m c hcid hcache hmgr hm hlk hchk
    subst hcache
    subst hmgr
    simp [Action.execute, hcid, hm, hlk, hchk]

/-- A manager whose condition check returns `True`. -/
def trueMgr : CondManager :=
  { hasGetShared := true,
    lookup := fun _ =>
      some (.cond { id := some "c1", name := "cond", type := "color_match",
                    checkResult := .ok true }) }

/-- C8 witness: both pre-emption cases instantiated concretely. -/
theorem c8_preemption_witness :
    Action.execute { gatedAction with conditionId := Option.none }
        Option.none Option.none true oneSimCore =
      { result := .ok true, coreRan := false, simCalls := 0, cacheAfter := Option.none } ∧
    (Action.execute gatedAction Option.none (some trueMgr) true oneSimCore).result = .ok true ∧
    (Action.execute gatedAction Option.none (some trueMgr) true oneSimCore).coreRan = false ∧
    (Action.execute gatedAction Option.none (some trueMgr) true oneSimCore).simCalls = 0 := by
  refine ⟨?_, ?_⟩
  · exact (c8_preemption_before_core { gatedAction with conditionId := Option.none }
      Option.none Option.none oneSimCore).1 rfl
  · have h := (c8_preemption_before_core gatedAction Option.none (some trueMgr) oneSimCore).2
      "c1" trueMgr { id := some "c1", name := "cond", type := "color_match",
                     checkResult := .ok true } rfl rfl rfl rfl rfl rfl
    exact ⟨h.1, h.2.1, h.2.2⟩

set_option exponentiation.threshold 1200 in
set_option maxRecDepth 16384 in
/-- C5: `create_job_run_condition(data)` is total and falls back to
`InfiniteRunCondition()` (empty params) for non-dict input, a missing or
non-string `type`, an empty `type`, and an unknown `type`; and an
exception thrown while constructing a known variant — the base class's
shadowed-`type` `TypeError` on truthy non-dict params, or the
`OverflowError` that `float()` raises inside `TimeRunCondition` on a
huge int — is caught by the factory's `except Exception` and also yields
the Infinite fallback.  A known type whose parameters merely fail to
parse still returns its own variant with the internal default
(mirroring the module's `__main__` test). -/
theorem c5_run_condition_factory_fallback :
    (∀ v : PyVal, (∀ es, v ≠ .dict es) → createJobRunCondition v = .infinite []) ∧
    (∀ es, (∀ s, dictGetD es "type" PyVal.none ≠ .str s) →
      createJobRunCondition (.dict es) = .infinite []) ∧
    (∀ es, dictGetD es "type" PyVal.none = .str "" →
      createJobRunCondition (.dict es) = .infinite []) ∧
    (∀ (es : List (String × PyVal)) (s : String),
      dictGetD es "type" PyVal.none = .str s → s ≠ "" → s ≠ "infinite" →
      s ≠ "count" → s ≠ "time" → createJobRunCondition (.dict es) = .infinite []) ∧
    CountRunCondition.init (.str "abc") =
      .error (.typeError "str object is not callable") ∧
    createJobRunCondition (.dict [("type", .str "count"), ("params", .str "abc")]) =
      .infinite [] ∧
    TimeRunCondition.init (.dict [("duration", .int (Int.ofNat (2 ^ 1024)))]) =
      .error (.overflowError "int too large to convert to float") ∧
    createJobRunCondition
      (.dict [("type", .str "time"),
              ("params", .dict [("duration", .int (Int.ofNat (2 ^ 1024)))])]) =
      .infinite [] ∧
    createJobRunCondition
      (.dict [("type", .str "count"), ("params", .dict [("count", .str "abc")])]) =
      .count [("count", .int 1)] 1 ∧
    (∀ v, ∃ c, createJobRunCondition v = c) := by
  refine ⟨?_, ?_, ?_, ?_, rfl, rfl, rfl, rfl, rfl, fun v => ⟨_, rfl⟩⟩
  · intro v hv
    cases v with
    | dict es => exact absurd rfl (hv es)
    | none => rfl
    | bool b => rfl
    | int n => rfl
    | float q => rfl
    | str s => rfl
    | list xs => rfl
  · intro es hv
    simp only [createJobRunCondition]
  · intro es hty
    simp only [createJobRunCondition]
    rw [hty]
    rfl
  · intro es s hty h1 h2 h3 h4
    simp only [createJobRunCondition]
    rw [hty]
    show (if s = "" then JobRunCondition.infinite []
      else
        match
          (if s = "infinite" then InfiniteRunCondition.init (dictGetD es "params" (PyVal.dict []))
           else if s = "count" then CountRunCondition.init (dictGetD es "params" (PyVal.dict []))
           else if s = "time" then TimeRunCondition.init (dictGetD es "params" (PyVal.dict []))
           else .ok (.infinite [])) with
        | .ok c => c
        | .error _ => .infinite []) = .infinite []
    rw [if_neg h1, if_neg h2, if_neg h3, if_neg h4]

/-- C5 witness: the non-dict and unknown-type fallbacks instantiated. -/
theorem c5_fallback_witness :
    createJobRunCondition (.int 5) = .infinite [] ∧
    createJobRunCondition (.dict [("type", .str "unknown"), ("params", .dict [])]) =
      .infinite [] := by
  refine ⟨?_, ?_⟩
  · exact c5_run_condition_factory_fallback.1 (.int 5) (fun es h => PyVal.noConfusion h)
  · exact c5_run_condition_factory_fallback.2.2.2.1 [("type", .str "unknown"),
      ("params", .dict [])] "unknown" rfl (by decide) (by decide) (by decide) (by decide)

/-- C6: the time run condition fails closed (`False`) whenever
`start_time` is 0.0 and otherwise continues exactly while the elapsed
monotonic time is strictly below the duration; with duration 5.0,
elapsed 4.99 s continues and elapsed 5.01 s stops. -/
theorem c6_time_run_condition_boundary :
    (∀ (ps : Dict) (d : Rat) (ctx : JobContext) (now : Rat), ctx.startTime = 0 →
      JobRunCondition.checkContinue (.time ps d) ctx now = false) ∧
    (∀ (ps : Dict) (d : Rat) (ctx : JobContext) (now : Rat), ctx.startTime ≠ 0 →
      (JobRunCondition.checkContinue (.time ps d) ctx now = true ↔
        now - ctx.startTime < d)) ∧
    TimeRunCondition.init (.dict [("duration", .float 5)]) =
      .ok (.time [("duration", .float 5)] 5) ∧
    JobRunCondition.checkContinue (.time [("duration", .float 5)] 5)
      ⟨0, 1, ""⟩ (1 + 499 / 100) = true ∧
    JobRunCondition.checkContinue (.time [("duration", .float 5)] 5)
      ⟨0, 1, ""⟩ (1 + 501 / 100) = false ∧
    JobRunCondition.checkContinue (.time [("duration", .float 5)] 5)
      ⟨0, 0, ""⟩ (1 + 499 / 100) = false := by
  refine ⟨?_, ?_, ?_, ?_, ?_, ?_⟩
  · intro ps d ctx now h
    simp [JobRunCondition.checkContinue, h]
  · intro ps d ctx now h
    simp [JobRunCondition.checkContinue, h]
  · rw [time_init_ok (jrcParamsNorm_dict _)]
    norm_num [dictGetD, dictGet, pyToFloat]
    rfl
  · norm_num [JobRunCondition.checkContinue]
  · norm_num [JobRunCondition.checkContinue]
  · norm_num [JobRunCondition.checkContinue]

/-- C6 witness: the fail-closed and boundary cases of the universally
quantified parts, at concrete values. -/
theorem c6_time_witness :
    JobRunCondition.checkContinue (.time [] 5) ⟨0, 0, ""⟩ 3 = false ∧
    (JobRunCondition.checkContinue (.time [] 5) ⟨0, 1, ""⟩ (3 / 2) = true ↔
      (3 / 2 : Rat) - 1 < 5) := by
  refine ⟨?_, ?_⟩
  · exact c6_time_run_condition_boundary.1 [] 5 ⟨0, 0, ""⟩ 3 rfl
  · have h := c6_time_run_condition_boundary.2.1 [] 5 ⟨0, 1, ""⟩ (3 / 2) (by decide)
    exact h

/-- C7: every constructed `CountRunCondition` has `target_count ≥ 1` and
every constructed `TimeRunCondition` has `duration_seconds ≥ 0.1`, with
the clamped value written back into `params`; construction from a params
dictionary always succeeds for Count (defaulting to 1 exactly when
`int()` raises `ValueError` or `TypeError`), while Time defaults to 60.0
exactly when `float()` raises `ValueError` or `TypeError` (a huge int
instead aborts construction with an uncaught `OverflowError`, so no
object with an out-of-bounds duration ever exists); the model's
operations (`check_continue`, `to_dict`, `reset`) are pure, so the
bounds persist for the object's lifetime. -/
theorem c7_run_condition_bounds :
    (∀ (v : PyVal) (ps : Dict) (t : Int),
      CountRunCondition.init v = .ok (.count ps t) →
      1 ≤ t ∧ dictGet ps "count" = some (.int t)) ∧
    (∀ (v : PyVal) (ps : Dict) (d : Rat),
      TimeRunCondition.init v = .ok (.time ps d) →
      1 / 10 ≤ d ∧ dictGet ps "duration" = some (.float d)) ∧
    (∀ es, ∃ ps t, CountRunCondition.init (.dict es) = .ok (.count ps t)) ∧
    (∀ (v : PyVal) (c : JobRunCondition), CountRunCondition.init v = .ok c →
      ∃ ps t, c = .count ps t) ∧
    (∀ (v : PyVal) (c : JobRunCondition), TimeRunCondition.init v = .ok c →
      ∃ ps d, c = .time ps d) ∧
    (∀ (es : Dict) (e : PyErr), catchVT e = true →
      pyToInt (dictGetD es "count" (.int 1)) = .error e →
      CountRunCondition.init (.dict es) = .ok (.count (dictSet es "count" (.int 1)) 1)) ∧
    (∀ (es : Dict) (e : PyErr), catchVT e = true →
      pyToFloat (dictGetD es "duration" (.float 60)) = .error e →
      TimeRunCondition.init (.dict es) =
        .ok (.time (dictSet es "duration" (.float 60)) 60)) := by
  refine ⟨?_, ?_, ?_, ?_, ?_, ?_, ?_⟩
  · intro v ps t h
    cases hj : jrcParamsNorm v with
    | error e =>
      rw [count_init_err hj] at h
      exact Except.noConfusion h
    | ok ps0 =>
      rw [count_init_ok hj] at h
      cases hp : pyToInt (dictGetD ps0 "count" (.int 1)) with
      | ok n =>
        rw [hp] at h
        replace h : Except.ok
            (JobRunCondition.count (dictSet ps0 "count" (.int (max 1 n))) (max 1 n)) =
          Except.ok (JobRunCondition.count ps t) := h
        rw [Except.ok.injEq, JobRunCondition.count.injEq] at h
        obtain ⟨hps, ht⟩ := h
        subst ht
        subst hps
        exact ⟨le_max_left 1 n, dictGet_dictSet_self _ _ _⟩
      | error e =>
        rw [hp] at h
        replace h : (if catchVT e then
            Except.ok (JobRunCondition.count (dictSet ps0 "count" (.int 1)) 1)
          else Except.error e) = Except.ok (JobRunCondition.count ps t) := h
        by_cases hce : catchVT e = true
        · rw [if_pos hce, Except.ok.injEq, JobRunCondition.count.injEq] at h
          obtain ⟨hps, ht⟩ := h
          subst ht
          subst hps
          exact ⟨le_refl 1, dictGet_dictSet_self _ _ _⟩
        · rw [if_neg hce] at h
          exact Except.noConfusion h
  · intro v ps d h
    cases hj : jrcParamsNorm v with
    | error e =>
      rw [time_init_err hj] at h
      exact Except.noConfusion h
    | ok ps0 =>
      rw [time_init_ok hj] at h
      cases hp : pyToFloat (dictGetD ps0 "duration" (.float 60)) with
      | ok x =>
        rw [hp] at h
        replace h : Except.ok
            (JobRunCondition.time (dictSet ps0 "duration" (.float (max (1 / 10) x)))
              (max (1 / 10) x)) =
          Except.ok (JobRunCondition.time ps d) := h
        rw [Except.ok.injEq, JobRunCondition.time.injEq] at h
        obtain ⟨hps, hd⟩ := h
        subst hd
        subst hps
        exact ⟨le_max_left (1 / 10) x, dictGet_dictSet_self _ _ _⟩
      | error e =>
        rw [hp] at h
        replace h : (if catchVT e then
            Except.ok (JobRunCondition.time (dictSet ps0 "duration" (.float 60)) 60)
          else Except.error e) = Except.ok (JobRunCondition.time ps d) := h
        by_cases hce : catchVT e = true
        · rw [if_pos hce, Except.ok.injEq, JobRunCondition.time.injEq] at h
          obtain ⟨hps, hd⟩ := h
          subst hd
          subst hps
          exact ⟨by norm_num, dictGet_dictSet_self _ _ _⟩
        · rw [if_neg hce] at h
          exact Except.noConfusion h
  · intro es
    cases hp : pyToInt (dictGetD es "count" (.int 1)) with
    | ok n =>
      exact ⟨dictSet es "count" (.int (max 1 n)), max 1 n,
        by rw [count_init_ok (jrcParamsNorm_dict es), hp]⟩
    | error e =>
      refine ⟨dictSet es "count" (.int 1), 1, ?_⟩
      rw [count_init_ok (jrcParamsNorm_dict es), hp]
      show (if catchVT e = true then
          Except.ok (JobRunCondition.count (dictSet es "count" (.int 1)) 1)
        else Except.error e) =
        Except.ok (JobRunCondition.count (dictSet es "count" (.int 1)) 1)
      rw [if_pos (pyToInt_err_caught hp)]
  · intro v c h
    cases hj : jrcParamsNorm v with
    | error e =>
      rw [count_init_err hj] at h
      exact Except.noConfusion h
    | ok ps0 =>
      rw [count_init_ok hj] at h
      cases hp : pyToInt (dictGetD ps0 "count" (.int 1)) with
      | ok n =>
        rw [hp] at h
        replace h : Except.ok
            (JobRunCondition.count (dictSet ps0 "count" (.int (max 1 n))) (max 1 n)) =
          Except.ok c := h
        rw [Except.ok.injEq] at h
        exact ⟨_, _, h.symm⟩
      | error e =>
        rw [hp] at h
        replace h : (if catchVT e then
            Except.ok (JobRunCondition.count (dictSet ps0 "count" (.int 1)) 1)
          else Except.error e) = Except.ok c := h
        by_cases hce : catchVT e = true
        · rw [if_pos hce, Except.ok.injEq] at h
          exact ⟨_, _, h.symm⟩
        · rw [if_neg hce] at h
          exact Except.noConfusion h
  · intro v c h
    cases hj : jrcParamsNorm v with
    | error e =>
      rw [time_init_err hj] at h
      exact Except.noConfusion h
    | ok ps0 =>
      rw [time_init_ok hj] at h
      cases hp : pyToFloat (dictGetD ps0 "duration" (.float 60)) with
      | ok x =>
        rw [hp] at h
        replace h : Except.ok
            (JobRunCondition.time (dictSet ps0 "duration" (.float (max (1 / 10) x)))
              (max (1 / 10) x)) =
          Except.ok c := h
        rw [Except.ok.injEq] at h
        exact ⟨_, _, h.symm⟩
      | error e =>
        rw [hp] at h
        replace h : (if catchVT e then
            Except.ok (JobRunCondition.time (dictSet ps0 "duration" (.float 60)) 60)
          else Except.error e) = Except.ok c := h
        by_cases hce : catchVT e = true
        · rw [if_pos hce, Except.ok.injEq] at h
          exact ⟨_, _, h.symm⟩
        · rw [if_neg hce] at h
          exact Except.noConfusion h
  · intro es e hce hp
    rw [count_init_ok (jrcParamsNorm_dict es), hp]
    show (if catchVT e = true then
        Except.ok (JobRunCondition.count (dictSet es "count" (.int 1)) 1)
      else Except.error e) =
      Except.ok (JobRunCondition.count (dictSet es "count" (.int 1)) 1)
    rw [if_pos hce]
  · intro es e hce hp
    rw [time_init_ok (jrcParamsNorm_dict es), hp]
    show (if catchVT e = true then
        Except.ok (JobRunCondition.time (dictSet es "duration" (.float 60)) 60)
      else Except.error e) =
      Except.ok (JobRunCondition.time (dictSet es "duration" (.float 60)) 60)
    rw [if_pos hce]

/-- C7 witness: the bounds at concrete constructions — `count: 0` clamps
to 1, `duration: 0` clamps to 0.1, and the unparseable string `"abc"`
falls back to the count default 1. -/
theorem c7_bounds_witness :
    ((1 : Int) ≤ 1 ∧ dictGet [("count", PyVal.int 1)] "count" = some (.int 1)) ∧
    ((1 / 10 : Rat) ≤ 1 / 10 ∧
      dictGet [("duration", PyVal.float (1 / 10))] "duration" =
        some (.float (1 / 10))) ∧
    CountRunCondition.init (.dict [("count", .str "abc")]) =
      .ok (.count (dictSet [("count", PyVal.str "abc")] "count" (.int 1)) 1) := by
  have hc : CountRunCondition.init (.dict [("count", .int 0)]) =
      .ok (.count [("count", .int 1)] 1) := by
    rw [count_init_ok (jrcParamsNorm_dict _)]
    norm_num [dictGetD, dictGet, pyToInt]
    rfl
  have ht : TimeRunCondition.init (.dict [("duration", .float 0)]) =
      .ok (.time [("duration", .float (1 / 10))] (1 / 10)) := by
    rw [time_init_ok (jrcParamsNorm_dict _)]
    norm_num [dictGetD, dictGet, pyToFloat]
    rfl
  refine ⟨?_, ?_, ?_⟩
  · exact c7_run_condition_bounds.1 (.dict [("count", .int 0)]) [("count", .int 1)] 1 hc
  · exact c7_run_condition_bounds.2.1 (.dict [("duration", .float 0)])
      [("duration", .float (1 / 10))] (1 / 10) ht
  · exact c7_run_condition_bounds.2.2.2.2.2.1 [("count", PyVal.str "abc")]
      (.valueError "invalid literal for int() with base 10") rfl rfl

/-- C4: the serialization round trip.  Every Action produced by
`from_dict` (necessarily of a known variant — unknown tags error out of
`from_dict`) satisfies `from_dict(to_dict(a)) = a` exactly (same type,
params, condition id, jump indices, absolute flag, fallback sequence and
validity verdict), and the round trip is idempotent: the second
serialization yields the same dictionary and the same action again. -/
theorem c4_to_dict_from_dict_roundtrip :
    ∀ (d : PyVal) (a : ActionData), Action.fromDict d = .ok a →
      Action.fromDict (Action.toDict a) = .ok a ∧
      ∀ b, Action.fromDict (Action.toDict a) = .ok b →
        Action.toDict b = Action.toDict a ∧ Action.fromDict (Action.toDict b) = .ok b := by
  intro d a h
  have h1 : Action.fromDict (Action.toDict a) = .ok a := fromDict_toDict (fromDict_inv h)
  refine ⟨h1, ?_⟩
  intro b hb
  rw [h1, Except.ok.injEq] at hb
  subst hb
  exact ⟨rfl, h1⟩

/-- The scenario dictionary of spec §8: a plain click action. -/
def sampleClickDict : PyVal :=
  .dict [("type", .str "click"),
         ("params", .dict [("x", .int 100), ("y", .int 200),
                           ("button", .str "left"), ("click_type", .str "single")]),
         ("condition_id", PyVal.none)]

/-- The Action obtained by loading `sampleClickDict`. -/
def sampleClickAction : ActionData :=
  match Action.fromDict sampleClickDict with
  | .ok a => a
  | .error _ => default

/-- C4 witness: the round trip evaluated on the concrete click action of
the spec's scenario. -/
theorem c4_roundtrip_witness :
    Action.fromDict (Action.toDict sampleClickAction) = .ok sampleClickAction :=
  (c4_to_dict_from_dict_roundtrip sampleClickDict sampleClickAction rfl).1

end AutoClicker
